import Mathlib

/-! Shallow embedding of the option-strategy evaluation engine of the
`dk-flask` repository (`schwab_api.py` and `app.py`), together with theorems
about its behaviour.

Modelling conventions:
* Python floats are embedded as exact rationals (`ℚ`).
* Calendar dates are embedded as integer day indices; `expirationDate` is a
  day index, `today` is passed explicitly, and the `exp` timestamp field of a
  record is identified with the expiration day index (the wall-clock
  conversion and the display strings, pure formatting, are not modelled).
* Python dicts keyed by strings are association lists in insertion order; an
  entry of a strike-keyed map carries both the provider's string key and its
  parsed float value (`float(strike_str)`).
* The HTTP quote and chain fetches of one symbol are modelled by an
  environment `Env : String → Except String SymbolData`; a `.error` models a
  raised `SchwabAPIError` (or any other exception) while fetching that
  symbol, and a successful per-symbol evaluation counts 2 upstream calls
  (quote + chain), as in the source.
* Python float formatting (`str(x)`, `str(int(x))`, the one-decimal form) is
  not re-implemented bit-for-bit; the three formatters are passed as data in
  a `StrikeFmt` record and the lookup logic is proved for any formatters.
-/

namespace DkFlask

/-- Python `int()` applied to a number: truncation toward zero. -/
def pyInt (q : ℚ) : ℤ := q.num.tdiv q.den

/-- One option contract as consumed by the evaluators: expiration day index
and the `bid` / `ask` fields (Python `opt.get("bid", 0)` defaults to 0, so
the fields are total). -/
structure OptionQuote where
  expirationDate : ℤ
  bid : ℚ
  ask : ℚ
deriving DecidableEq

/-- One entry of a strike-keyed dict: the provider's string key, its parsed
float value (`float(strike_str)`), and the contract list stored under it. -/
structure StrikeEntry where
  key : String
  strike : ℚ
  opts : List OptionQuote
deriving DecidableEq

/-- A strike-keyed dict (insertion order preserved). -/
abbrev StrikeMap := List StrikeEntry

/-- An expiration-keyed dict of strike maps (`callExpDateMap` etc.). -/
abbrev ExpMap := List (String × StrikeMap)

/-- Python `strike_str in strike_map`. -/
def hasKey (m : StrikeMap) (k : String) : Bool :=
  m.any (fun e => e.key == k)

/-- Python `strike_map[strike_str]` (callers only use it after a key test;
a missing key yields `[]` here). -/
def getKey (m : StrikeMap) (k : String) : List OptionQuote :=
  match m.find? (fun e => e.key == k) with
  | some e => e.opts
  | none => []

/-- Python `exp_map.get(exp_key)` / `exp_key in exp_map`. -/
def expLookup (m : ExpMap) (k : String) : Option StrikeMap :=
  (m.find? (fun e => e.1 == k)).map (fun e => e.2)

/-- The three strike-string formatters probed by the source:
`str(strike)`, `str(int(strike))` and the one-decimal format
`f-string {strike:.1f}`. They are data of the embedding. -/
structure StrikeFmt where
  pyStr : ℚ → String
  pyStrInt : ℚ → String
  pyFmt1f : ℚ → String

/-- `SchwabAPI._find_strike_key`: probe the three string forms in order and
return the first one that is a key of the map. The call-spread and
put-spread evaluators inline the identical probe loop; this single
definition is used for all of them. -/
def find_strike_key (F : StrikeFmt) (strike_map : StrikeMap) (strike : ℚ) :
    Option String :=
  [F.pyStr strike, F.pyStrInt strike, F.pyFmt1f strike].find?
    (fun fmt => hasKey strike_map fmt)

/-- `SchwabAPI._calculate_dte`: whole days between expiration and today. -/
def calculate_dte (expirationDate today : ℤ) : ℤ :=
  expirationDate - today

/-- Result of `SchwabAPI._calculate_metrics` (covered call). -/
structure Metrics where
  cost : ℚ
  maxProfit : ℚ
  pctCall : ℚ
  annPctCall : ℚ
deriving DecidableEq

/-- `SchwabAPI._calculate_metrics` with its default `pct = 50`. Note the
annualisation guard is Python `if dte` (dte nonzero), not `dte > 0`. -/
def calculate_metrics (price strike bid ask : ℚ) (dte : ℤ) (pct : ℚ) :
    Metrics :=
  let call_price := bid + (pct / 100) * (ask - bid)
  let cost := (price - call_price) * 100
  let max_profit := (strike * 100) - cost
  let pct_call := if cost ≠ 0 then (max_profit / cost) * 100 else 0
  let ann_pct_call := if dte ≠ 0 then (pct_call * 365) / (dte : ℚ) else 0
  ⟨cost, max_profit, pct_call, ann_pct_call⟩

/-- Result of `SchwabAPI._calculate_collar_metrics`. -/
structure CollarMetrics where
  netCost : ℚ
  collar : ℚ
  annReturn : ℚ
  strikePricePct : ℚ
deriving DecidableEq

/-- `SchwabAPI._calculate_collar_metrics`. The guard is Python
`if net_cost and dte` (both nonzero). -/
def calculate_collar_metrics (price strike call_mid put_mid : ℚ) (dte : ℤ) :
    CollarMetrics :=
  let net_cost := (price - call_mid + put_mid) * 100
  let collar := (strike - price + call_mid - put_mid) * 100
  let ann_return :=
    if net_cost ≠ 0 ∧ dte ≠ 0 then
      (collar / net_cost) * (365 / (dte : ℚ)) * 100
    else 0
  let strike_pct := if price ≠ 0 then (strike / price) * 100 else 0
  ⟨net_cost, collar, ann_return, strike_pct⟩

/-- Output record of the covered-call evaluator (`_fetch_options_chain`). -/
structure CCRecord where
  symbol : String
  price : ℚ
  exp : ℤ
  dte : ℤ
  strike : ℚ
  bid : ℚ
  ask : ℚ
  mid : ℚ
  priceStrikePct : ℚ
  metrics : Metrics
deriving DecidableEq

/-- Output record of the collar evaluator (`_fetch_stock_collar`); the
`metrics` dict is merged into the record in the source. -/
structure CollarRecord where
  symbol : String
  price : ℚ
  exp : ℤ
  dte : ℤ
  strike : ℚ
  callBid : ℚ
  callAsk : ℚ
  callMid : ℚ
  putBid : ℚ
  putAsk : ℚ
  putMid : ℚ
  metrics : CollarMetrics
deriving DecidableEq

/-- Output record of the call-spread evaluator (`_fetch_stock_call_spread`). -/
structure CSRecord where
  symbol : String
  price : ℚ
  exp : ℤ
  dte : ℤ
  strikePct : ℚ
  lowerStrike : ℚ
  upperStrike : ℚ
  spreadWidth : ℚ
  lowerBid : ℚ
  lowerAsk : ℚ
  lowerMid : ℚ
  upperBid : ℚ
  upperAsk : ℚ
  upperMid : ℚ
  paid : ℚ
  maxGain : ℚ
  pctGain : ℚ
  annPctGain : ℚ
deriving DecidableEq

/-- Output record of the put-spread evaluator (`_fetch_stock_put_spread`). -/
structure PSRecord where
  symbol : String
  price : ℚ
  exp : ℤ
  dte : ℤ
  strikePct : ℚ
  lowerStrike : ℚ
  higherStrike : ℚ
  spreadWidth : ℚ
  lowerBid : ℚ
  lowerAsk : ℚ
  lowerMid : ℚ
  higherBid : ℚ
  higherAsk : ℚ
  higherMid : ℚ
  creditReceived : ℚ
  maxRisk : ℚ
  maxGain : ℚ
  pctGain : ℚ
  annPctGain : ℚ
deriving DecidableEq

/-- Output record of the iron-condor evaluator (`_fetch_stock_iron_condor`). -/
structure ICRecord where
  symbol : String
  price : ℚ
  exp : ℤ
  dte : ℤ
  spreadWidth : ℚ
  putLowerStrike : ℚ
  putHigherStrike : ℚ
  putStrikePct : ℚ
  putLowerBid : ℚ
  putLowerAsk : ℚ
  putLowerMid : ℚ
  putHigherBid : ℚ
  putHigherAsk : ℚ
  putHigherMid : ℚ
  putCredit : ℚ
  callLowerStrike : ℚ
  callHigherStrike : ℚ
  callStrikePct : ℚ
  callLowerBid : ℚ
  callLowerAsk : ℚ
  callLowerMid : ℚ
  callHigherBid : ℚ
  callHigherAsk : ℚ
  callHigherMid : ℚ
  callCredit : ℚ
  totalCredit : ℚ
  maxRisk : ℚ
  pctGain : ℚ
  annPctGain : ℚ
deriving DecidableEq

/-- Elements of `enumerate(l)` paired with the remaining suffix:
`withRest l` lists each `(l[i], l[i+1:])`, mirroring the source's
`for i, a in enumerate(l): for b in l[i+1:]` loops. -/
def withRest {α : Type} : List α → List (α × List α)
  | [] => []
  | a :: as => (a, as) :: withRest as

/-- Body of the covered-call chain loop (`_fetch_options_chain`, lines
1294-1324): one strike entry either yields a record or is skipped. The
strike bounds are the integer-truncated `int(price * pct / 100)` values of
the source. Note: only `bid <= 0 or ask <= 0` is rejected here, and the
annualisation comes from `_calculate_metrics`. -/
def ccRecordOf (symbol : String) (price : ℚ) (min_strike max_strike : ℤ)
    (min_dte max_dte today : ℤ) (e : StrikeEntry) : Option CCRecord :=
  if e.strike < (min_strike : ℚ) ∨ e.strike > (max_strike : ℚ) then none
  else
    match e.opts with
    | [] => none
    | opt :: _ =>
      if calculate_dte opt.expirationDate today < min_dte ∨
          calculate_dte opt.expirationDate today > max_dte then none
      else if opt.bid ≤ 0 ∨ opt.ask ≤ 0 then none
      else if (calculate_metrics price e.strike opt.bid opt.ask
            (calculate_dte opt.expirationDate today) 50).pctCall < 0 ∨
          (calculate_metrics price e.strike opt.bid opt.ask
            (calculate_dte opt.expirationDate today) 50).annPctCall < 0 then
        none
      else
        some
          { symbol := symbol
            price := price
            exp := opt.expirationDate
            dte := calculate_dte opt.expirationDate today
            strike := e.strike
            bid := opt.bid
            ask := opt.ask
            mid := (opt.bid + opt.ask) / 2
            priceStrikePct := 100 * (e.strike - price) / price
            metrics := calculate_metrics price e.strike opt.bid opt.ask
              (calculate_dte opt.expirationDate today) 50 }

/-- Record part of `SchwabAPI._fetch_options_chain` after the quote and the
chain have been fetched. -/
def fetch_options_chain_records (symbol : String) (price : ℚ)
    (min_strike_pct max_strike_pct min_dte max_dte today : ℤ)
    (call_map : ExpMap) : List CCRecord :=
  call_map.flatMap (fun em =>
    em.2.filterMap (ccRecordOf symbol price
      (pyInt (price * ((min_strike_pct : ℚ) / 100)))
      (pyInt (price * ((max_strike_pct : ℚ) / 100)))
      min_dte max_dte today))

/-- Body of the collar join loop (`_fetch_stock_collar`): one call-side
strike entry, joined on the same strike string in the put map. -/
def collarRecordOf (symbol : String) (price : ℚ) (min_strike max_strike : ℤ)
    (min_dte max_dte today : ℤ) (put_strikes : StrikeMap) (e : StrikeEntry) :
    Option CollarRecord :=
  if ¬ hasKey put_strikes e.key then none
  else if e.strike < (min_strike : ℚ) ∨ e.strike > (max_strike : ℚ) then none
  else
    match e.opts, getKey put_strikes e.key with
    | call_opt :: _, put_opt :: _ =>
      if calculate_dte call_opt.expirationDate today < min_dte ∨
          calculate_dte call_opt.expirationDate today > max_dte then none
      else if min (min call_opt.bid call_opt.ask) (min put_opt.bid put_opt.ask) ≤ 0 ∨
          call_opt.ask < call_opt.bid ∨ put_opt.ask < put_opt.bid then none
      else if (calculate_collar_metrics price e.strike
            ((call_opt.bid + call_opt.ask) / 2) ((put_opt.bid + put_opt.ask) / 2)
            (calculate_dte call_opt.expirationDate today)).collar ≤ 0 then none
      else
        some
          { symbol := symbol
            price := price
            exp := call_opt.expirationDate
            dte := calculate_dte call_opt.expirationDate today
            strike := e.strike
            callBid := call_opt.bid
            callAsk := call_opt.ask
            callMid := (call_opt.bid + call_opt.ask) / 2
            putBid := put_opt.bid
            putAsk := put_opt.ask
            putMid := (put_opt.bid + put_opt.ask) / 2
            metrics := calculate_collar_metrics price e.strike
              ((call_opt.bid + call_opt.ask) / 2) ((put_opt.bid + put_opt.ask) / 2)
              (calculate_dte call_opt.expirationDate today) }
    | _, _ => none

/-- Record part of `SchwabAPI._fetch_stock_collar` after the fetches. The
strike bounds are integer-truncated as in the source, and an expiration is
skipped when `put_map.get(exp_key)` is falsy (absent or empty). -/
def fetch_stock_collar_records (symbol : String) (price : ℚ)
    (min_strike_pct max_strike_pct min_dte max_dte today : ℤ)
    (call_map put_map : ExpMap) : List CollarRecord :=
  call_map.flatMap (fun em =>
    match expLookup put_map em.1 with
    | none => []
    | some put_strikes =>
      if put_strikes.isEmpty then []
      else
        em.2.filterMap (collarRecordOf symbol price
          (pyInt (price * ((min_strike_pct : ℚ) / 100)))
          (pyInt (price * ((max_strike_pct : ℚ) / 100)))
          min_dte max_dte today put_strikes))

/-- Inner loop of `_fetch_stock_call_spread` for one upper strike: the upper
leg has already been resolved and validated; each lower strike of the
remaining (descending) list yields at most one record. -/
def csRecordOf (symbol : String) (price : ℚ) (max_spread : ℤ)
    (F : StrikeFmt) (strike_map : StrikeMap) (upper_strike : ℚ)
    (upper_opt : OptionQuote) (dte : ℤ) (lower_strike : ℚ) :
    Option CSRecord :=
  if upper_strike - lower_strike > (max_spread : ℚ) then none
  else
    match find_strike_key F strike_map lower_strike with
    | none => none
    | some lower_key =>
      match getKey strike_map lower_key with
      | [] => none
      | lower_opt :: _ =>
        if lower_opt.bid ≤ 0 ∨ lower_opt.ask ≤ 0 ∨ lower_opt.ask < lower_opt.bid then
          none
        else if (lower_opt.bid + lower_opt.ask) / 2 ≤ (upper_opt.bid + upper_opt.ask) / 2 then
          none
        else if ((upper_strike - lower_strike) * 100) -
            ((lower_opt.bid + lower_opt.ask) / 2 - (upper_opt.bid + upper_opt.ask) / 2) * 100 ≤ 0 then
          none
        else
          some
            { symbol := symbol
              price := price
              exp := upper_opt.expirationDate
              dte := dte
              strikePct := (upper_strike / price) * 100
              lowerStrike := lower_strike
              upperStrike := upper_strike
              spreadWidth := upper_strike - lower_strike
              lowerBid := lower_opt.bid
              lowerAsk := lower_opt.ask
              lowerMid := (lower_opt.bid + lower_opt.ask) / 2
              upperBid := upper_opt.bid
              upperAsk := upper_opt.ask
              upperMid := (upper_opt.bid + upper_opt.ask) / 2
              paid := ((lower_opt.bid + lower_opt.ask) / 2 - (upper_opt.bid + upper_opt.ask) / 2) * 100
              maxGain := ((upper_strike - lower_strike) * 100) -
                ((lower_opt.bid + lower_opt.ask) / 2 - (upper_opt.bid + upper_opt.ask) / 2) * 100
              pctGain :=
                if ((lower_opt.bid + lower_opt.ask) / 2 - (upper_opt.bid + upper_opt.ask) / 2) * 100 > 0 then
                  ((((upper_strike - lower_strike) * 100) -
                      ((lower_opt.bid + lower_opt.ask) / 2 - (upper_opt.bid + upper_opt.ask) / 2) * 100) /
                    (((lower_opt.bid + lower_opt.ask) / 2 - (upper_opt.bid + upper_opt.ask) / 2) * 100)) * 100
                else 0
              annPctGain :=
                if 0 < dte then
                  ((if ((lower_opt.bid + lower_opt.ask) / 2 - (upper_opt.bid + upper_opt.ask) / 2) * 100 > 0 then
                      ((((upper_strike - lower_strike) * 100) -
                          ((lower_opt.bid + lower_opt.ask) / 2 - (upper_opt.bid + upper_opt.ask) / 2) * 100) /
                        (((lower_opt.bid + lower_opt.ask) / 2 - (upper_opt.bid + upper_opt.ask) / 2) * 100)) * 100
                    else 0) * 365) / (dte : ℚ)
                else 0 }

/-- Outer loop body of `_fetch_stock_call_spread` for one upper strike: the
three-format key probe (inlined in the source, identical to
`_find_strike_key`), the `options[0]` access, the dte bounds, the upper-leg
quote validation, then the inner lower-strike loop. -/
def csPerUpper (symbol : String) (price : ℚ) (max_spread min_dte max_dte today : ℤ)
    (F : StrikeFmt) (strike_map : StrikeMap) (upper_strike : ℚ)
    (lowers : List ℚ) : List CSRecord :=
  match find_strike_key F strike_map upper_strike with
  | none => []
  | some upper_key =>
    match getKey strike_map upper_key with
    | [] => []
    | upper_opt :: _ =>
      if calculate_dte upper_opt.expirationDate today < min_dte ∨
          calculate_dte upper_opt.expirationDate today > max_dte then []
      else if upper_opt.bid ≤ 0 ∨ upper_opt.ask ≤ 0 ∨ upper_opt.ask < upper_opt.bid then []
      else
        lowers.filterMap (csRecordOf symbol price max_spread F strike_map
          upper_strike upper_opt (calculate_dte upper_opt.expirationDate today))

/-- Record part of `SchwabAPI._fetch_stock_call_spread` after the fetches:
float strike bounds, descending stable sort, inclusive range filter, the
`len(valid) < 2` guard, then the pairwise scan. -/
def fetch_stock_call_spread_records (symbol : String) (price : ℚ)
    (min_strike_pct max_strike_pct min_dte max_dte max_spread today : ℤ)
    (F : StrikeFmt) (call_map : ExpMap) : List CSRecord :=
  call_map.flatMap (fun em =>
    let valid := ((em.2.map (fun e => e.strike)).mergeSort
        (fun a b => decide (b ≤ a))).filter
      (fun s => decide (price * ((min_strike_pct : ℚ) / 100) ≤ s) &&
        decide (s ≤ price * ((max_strike_pct : ℚ) / 100)))
    if valid.length < 2 then []
    else
      (withRest valid).flatMap (fun p =>
        csPerUpper symbol price max_spread min_dte max_dte today F em.2 p.1 p.2))

/-- Inner loop of `_fetch_stock_put_spread` for one lower strike: each
higher strike of the remaining (ascending) list yields at most one record.
Note there is no `max_risk > 0` admission check; `max_risk <= 0` merely
forces `pct_gain = 0`. -/
def psRecordOf (symbol : String) (price : ℚ) (max_spread : ℤ)
    (F : StrikeFmt) (strike_map : StrikeMap) (lower_strike : ℚ)
    (lower_opt : OptionQuote) (dte : ℤ) (higher_strike : ℚ) :
    Option PSRecord :=
  if higher_strike - lower_strike > (max_spread : ℚ) then none
  else
    match find_strike_key F strike_map higher_strike with
    | none => none
    | some higher_key =>
      match getKey strike_map higher_key with
      | [] => none
      | higher_opt :: _ =>
        if higher_opt.bid ≤ 0 ∨ higher_opt.ask ≤ 0 ∨ higher_opt.ask < higher_opt.bid then
          none
        else if (higher_opt.bid + higher_opt.ask) / 2 ≤ (lower_opt.bid + lower_opt.ask) / 2 then
          none
        else if ((higher_opt.bid + higher_opt.ask) / 2 - (lower_opt.bid + lower_opt.ask) / 2) * 100 ≤ 0 then
          none
        else
          some
            { symbol := symbol
              price := price
              exp := lower_opt.expirationDate
              dte := dte
              strikePct := (higher_strike / price) * 100
              lowerStrike := lower_strike
              higherStrike := higher_strike
              spreadWidth := higher_strike - lower_strike
              lowerBid := lower_opt.bid
              lowerAsk := lower_opt.ask
              lowerMid := (lower_opt.bid + lower_opt.ask) / 2
              higherBid := higher_opt.bid
              higherAsk := higher_opt.ask
              higherMid := (higher_opt.bid + higher_opt.ask) / 2
              creditReceived := ((higher_opt.bid + higher_opt.ask) / 2 - (lower_opt.bid + lower_opt.ask) / 2) * 100
              maxRisk := ((higher_strike - lower_strike) * 100) -
                ((higher_opt.bid + higher_opt.ask) / 2 - (lower_opt.bid + lower_opt.ask) / 2) * 100
              maxGain := ((higher_opt.bid + higher_opt.ask) / 2 - (lower_opt.bid + lower_opt.ask) / 2) * 100
              pctGain :=
                if ((higher_strike - lower_strike) * 100) -
                    ((higher_opt.bid + higher_opt.ask) / 2 - (lower_opt.bid + lower_opt.ask) / 2) * 100 > 0 then
                  ((((higher_opt.bid + higher_opt.ask) / 2 - (lower_opt.bid + lower_opt.ask) / 2) * 100) /
                    (((higher_strike - lower_strike) * 100) -
                      ((higher_opt.bid + higher_opt.ask) / 2 - (lower_opt.bid + lower_opt.ask) / 2) * 100)) * 100
                else 0
              annPctGain :=
                if 0 < dte then
                  ((if ((higher_strike - lower_strike) * 100) -
                        ((higher_opt.bid + higher_opt.ask) / 2 - (lower_opt.bid + lower_opt.ask) / 2) * 100 > 0 then
                      ((((higher_opt.bid + higher_opt.ask) / 2 - (lower_opt.bid + lower_opt.ask) / 2) * 100) /
                        (((higher_strike - lower_strike) * 100) -
                          ((higher_opt.bid + higher_opt.ask) / 2 - (lower_opt.bid + lower_opt.ask) / 2) * 100)) * 100
                    else 0) * 365) / (dte : ℚ)
                else 0 }

/-- Outer loop body of `_fetch_stock_put_spread` for one lower strike. -/
def psPerLower (symbol : String) (price : ℚ) (max_spread min_dte max_dte today : ℤ)
    (F : StrikeFmt) (strike_map : StrikeMap) (lower_strike : ℚ)
    (highers : List ℚ) : List PSRecord :=
  match find_strike_key F strike_map lower_strike with
  | none => []
  | some lower_key =>
    match getKey strike_map lower_key with
    | [] => []
    | lower_opt :: _ =>
      if calculate_dte lower_opt.expirationDate today < min_dte ∨
          calculate_dte lower_opt.expirationDate today > max_dte then []
      else if lower_opt.bid ≤ 0 ∨ lower_opt.ask ≤ 0 ∨ lower_opt.ask < lower_opt.bid then []
      else
        highers.filterMap (psRecordOf symbol price max_spread F strike_map
          lower_strike lower_opt (calculate_dte lower_opt.expirationDate today))

/-- Record part of `SchwabAPI._fetch_stock_put_spread` after the fetches:
float strike bounds, ascending stable sort, inclusive range filter, the
`len(valid) < 2` guard, then the pairwise scan. -/
def fetch_stock_put_spread_records (symbol : String) (price : ℚ)
    (min_strike_pct max_strike_pct min_dte max_dte max_spread today : ℤ)
    (F : StrikeFmt) (put_map : ExpMap) : List PSRecord :=
  put_map.flatMap (fun em =>
    let valid := ((em.2.map (fun e => e.strike)).mergeSort
        (fun a b => decide (a ≤ b))).filter
      (fun s => decide (price * ((min_strike_pct : ℚ) / 100) ≤ s) &&
        decide (s ≤ price * ((max_strike_pct : ℚ) / 100)))
    if valid.length < 2 then []
    else
      (withRest valid).flatMap (fun p =>
        psPerLower symbol price max_spread min_dte max_dte today F em.2 p.1 p.2))

/-- Intermediate spread candidate of `_fetch_stock_iron_condor`
(the dicts appended to `put_spreads` / `call_spreads`). -/
structure SpreadCand where
  lowerStrike : ℚ
  higherStrike : ℚ
  spreadWidth : ℚ
  lowerBid : ℚ
  lowerAsk : ℚ
  higherBid : ℚ
  higherAsk : ℚ
  dte : ℤ
  expDate : ℤ
deriving DecidableEq

/-- Inner put-side candidate loop of `_fetch_stock_iron_condor` for one
lower put strike (quotes only need `bid > 0` and `ask > 0`; admission needs
`higher_put_bid > lower_put_ask`). -/
def icPutCandOf (max_spread : ℤ) (F : StrikeFmt) (put_strike_map : StrikeMap)
    (lower_put : ℚ) (lower_opt : OptionQuote) (dte : ℤ) (higher_put : ℚ) :
    Option SpreadCand :=
  if higher_put - lower_put > (max_spread : ℚ) then none
  else
    match find_strike_key F put_strike_map higher_put with
    | none => none
    | some higher_key =>
      match getKey put_strike_map higher_key with
      | [] => none
      | higher_opt :: _ =>
        if higher_opt.bid ≤ 0 ∨ higher_opt.ask ≤ 0 then none
        else if higher_opt.bid ≤ lower_opt.ask then none
        else
          some
            { lowerStrike := lower_put
              higherStrike := higher_put
              spreadWidth := higher_put - lower_put
              lowerBid := lower_opt.bid
              lowerAsk := lower_opt.ask
              higherBid := higher_opt.bid
              higherAsk := higher_opt.ask
              dte := dte
              expDate := lower_opt.expirationDate }

/-- Outer put-side candidate loop of `_fetch_stock_iron_condor` for one
lower put strike. -/
def icPutCandsPerLower (max_spread min_dte max_dte today : ℤ) (F : StrikeFmt)
    (put_strike_map : StrikeMap) (lower_put : ℚ) (highers : List ℚ) :
    List SpreadCand :=
  match find_strike_key F put_strike_map lower_put with
  | none => []
  | some lower_key =>
    match getKey put_strike_map lower_key with
    | [] => []
    | lower_opt :: _ =>
      if calculate_dte lower_opt.expirationDate today < min_dte ∨
          calculate_dte lower_opt.expirationDate today > max_dte then []
      else if lower_opt.bid ≤ 0 ∨ lower_opt.ask ≤ 0 then []
      else
        highers.filterMap (icPutCandOf max_spread F put_strike_map lower_put
          lower_opt (calculate_dte lower_opt.expirationDate today))

/-- Put-side candidate list of `_fetch_stock_iron_condor` for one
expiration. -/
def icPutSpreads (max_spread min_dte max_dte today : ℤ) (F : StrikeFmt)
    (put_strike_map : StrikeMap) (valid_put_strikes : List ℚ) :
    List SpreadCand :=
  (withRest valid_put_strikes).flatMap (fun p =>
    icPutCandsPerLower max_spread min_dte max_dte today F put_strike_map p.1 p.2)

/-- Inner call-side candidate loop of `_fetch_stock_iron_condor` for one
lower call strike (admission needs `lower_call_bid > higher_call_ask`). -/
def icCallCandOf (max_spread : ℤ) (F : StrikeFmt) (call_strike_map : StrikeMap)
    (lower_call : ℚ) (lower_opt : OptionQuote) (dte : ℤ) (higher_call : ℚ) :
    Option SpreadCand :=
  if higher_call - lower_call > (max_spread : ℚ) then none
  else
    match find_strike_key F call_strike_map higher_call with
    | none => none
    | some higher_key =>
      match getKey call_strike_map higher_key with
      | [] => none
      | higher_opt :: _ =>
        if higher_opt.bid ≤ 0 ∨ higher_opt.ask ≤ 0 then none
        else if lower_opt.bid ≤ higher_opt.ask then none
        else
          some
            { lowerStrike := lower_call
              higherStrike := higher_call
              spreadWidth := higher_call - lower_call
              lowerBid := lower_opt.bid
              lowerAsk := lower_opt.ask
              higherBid := higher_opt.bid
              higherAsk := higher_opt.ask
              dte := dte
              expDate := lower_opt.expirationDate }

/-- Outer call-side candidate loop of `_fetch_stock_iron_condor` for one
lower call strike. -/
def icCallCandsPerLower (max_spread min_dte max_dte today : ℤ) (F : StrikeFmt)
    (call_strike_map : StrikeMap) (lower_call : ℚ) (highers : List ℚ) :
    List SpreadCand :=
  match find_strike_key F call_strike_map lower_call with
  | none => []
  | some lower_key =>
    match getKey call_strike_map lower_key with
    | [] => []
    | lower_opt :: _ =>
      if calculate_dte lower_opt.expirationDate today < min_dte ∨
          calculate_dte lower_opt.expirationDate today > max_dte then []
      else if lower_opt.bid ≤ 0 ∨ lower_opt.ask ≤ 0 then []
      else
        highers.filterMap (icCallCandOf max_spread F call_strike_map lower_call
          lower_opt (calculate_dte lower_opt.expirationDate today))

/-- Call-side candidate list of `_fetch_stock_iron_condor` for one
expiration. -/
def icCallSpreads (max_spread min_dte max_dte today : ℤ) (F : StrikeFmt)
    (call_strike_map : StrikeMap) (valid_call_strikes : List ℚ) :
    List SpreadCand :=
  (withRest valid_call_strikes).flatMap (fun p =>
    icCallCandsPerLower max_spread min_dte max_dte today F call_strike_map p.1 p.2)

/-- Pairing step of `_fetch_stock_iron_condor`: a put candidate and a call
candidate are combined only when they have identical spread width and
identical dte, and the combined record is kept only when
`total_credit > 0` and `max_risk > 0`. -/
def icCombineOf (symbol : String) (price : ℚ) (ps cs : SpreadCand) :
    Option ICRecord :=
  if ps.spreadWidth ≠ cs.spreadWidth then none
  else if ps.dte ≠ cs.dte then none
  else if ((ps.higherBid + ps.higherAsk) / 2 - (ps.lowerBid + ps.lowerAsk) / 2) * 100 +
      ((cs.lowerBid + cs.lowerAsk) / 2 - (cs.higherBid + cs.higherAsk) / 2) * 100 ≤ 0 then
    none
  else if (ps.spreadWidth * 100) -
      (((ps.higherBid + ps.higherAsk) / 2 - (ps.lowerBid + ps.lowerAsk) / 2) * 100 +
        ((cs.lowerBid + cs.lowerAsk) / 2 - (cs.higherBid + cs.higherAsk) / 2) * 100) ≤ 0 then
    none
  else
    some
      { symbol := symbol
        price := price
        exp := ps.expDate
        dte := ps.dte
        spreadWidth := ps.spreadWidth
        putLowerStrike := ps.lowerStrike
        putHigherStrike := ps.higherStrike
        putStrikePct := (ps.higherStrike / price) * 100
        putLowerBid := ps.lowerBid
        putLowerAsk := ps.lowerAsk
        putLowerMid := (ps.lowerBid + ps.lowerAsk) / 2
        putHigherBid := ps.higherBid
        putHigherAsk := ps.higherAsk
        putHigherMid := (ps.higherBid + ps.higherAsk) / 2
        putCredit := ((ps.higherBid + ps.higherAsk) / 2 - (ps.lowerBid + ps.lowerAsk) / 2) * 100
        callLowerStrike := cs.lowerStrike
        callHigherStrike := cs.higherStrike
        callStrikePct := (cs.lowerStrike / price) * 100
        callLowerBid := cs.lowerBid
        callLowerAsk := cs.lowerAsk
        callLowerMid := (cs.lowerBid + cs.lowerAsk) / 2
        callHigherBid := cs.higherBid
        callHigherAsk := cs.higherAsk
        callHigherMid := (cs.higherBid + cs.higherAsk) / 2
        callCredit := ((cs.lowerBid + cs.lowerAsk) / 2 - (cs.higherBid + cs.higherAsk) / 2) * 100
        totalCredit := ((ps.higherBid + ps.higherAsk) / 2 - (ps.lowerBid + ps.lowerAsk) / 2) * 100 +
          ((cs.lowerBid + cs.lowerAsk) / 2 - (cs.higherBid + cs.higherAsk) / 2) * 100
        maxRisk := (ps.spreadWidth * 100) -
          (((ps.higherBid + ps.higherAsk) / 2 - (ps.lowerBid + ps.lowerAsk) / 2) * 100 +
            ((cs.lowerBid + cs.lowerAsk) / 2 - (cs.higherBid + cs.higherAsk) / 2) * 100)
        pctGain :=
          ((((ps.higherBid + ps.higherAsk) / 2 - (ps.lowerBid + ps.lowerAsk) / 2) * 100 +
              ((cs.lowerBid + cs.lowerAsk) / 2 - (cs.higherBid + cs.higherAsk) / 2) * 100) /
            ((ps.spreadWidth * 100) -
              (((ps.higherBid + ps.higherAsk) / 2 - (ps.lowerBid + ps.lowerAsk) / 2) * 100 +
                ((cs.lowerBid + cs.lowerAsk) / 2 - (cs.higherBid + cs.higherAsk) / 2) * 100))) * 100
        annPctGain :=
          if 0 < ps.dte then
            (((((ps.higherBid + ps.higherAsk) / 2 - (ps.lowerBid + ps.lowerAsk) / 2) * 100 +
                  ((cs.lowerBid + cs.lowerAsk) / 2 - (cs.higherBid + cs.higherAsk) / 2) * 100) /
                ((ps.spreadWidth * 100) -
                  (((ps.higherBid + ps.higherAsk) / 2 - (ps.lowerBid + ps.lowerAsk) / 2) * 100 +
                    ((cs.lowerBid + cs.lowerAsk) / 2 - (cs.higherBid + cs.higherAsk) / 2) * 100))) * 100 * 365) /
              (ps.dte : ℚ)
          else 0 }

/-- The strike-range-filtered ascending put strike list of one iron-condor
expiration: the window is `[price*minPct/100, price*maxPct/100]`, inclusive
on both ends. -/
def icValidPutStrikes (price : ℚ) (min_strike_pct max_strike_pct : ℤ)
    (put_strike_map : StrikeMap) : List ℚ :=
  ((put_strike_map.map (fun e => e.strike)).mergeSort
      (fun a b => decide (a ≤ b))).filter
    (fun s => decide (price * ((min_strike_pct : ℚ) / 100) ≤ s) &&
      decide (s ≤ price * ((max_strike_pct : ℚ) / 100)))

/-- The strike-range-filtered ascending call strike list of one iron-condor
expiration: the window is the mirror image
`[price*(2-maxPct/100), price*(2-minPct/100)]`, inclusive on both ends. -/
def icValidCallStrikes (price : ℚ) (min_strike_pct max_strike_pct : ℤ)
    (call_strike_map : StrikeMap) : List ℚ :=
  ((call_strike_map.map (fun e => e.strike)).mergeSort
      (fun a b => decide (a ≤ b))).filter
    (fun s => decide (price * (2 - (max_strike_pct : ℚ) / 100) ≤ s) &&
      decide (s ≤ price * (2 - (min_strike_pct : ℚ) / 100)))

/-- Record part of `SchwabAPI._fetch_stock_iron_condor` after the fetches:
the put window is `[price*minPct/100, price*maxPct/100]`, the call window
its mirror image `[price*(2-maxPct/100), price*(2-minPct/100)]`; an
expiration must be present in both maps; the two candidate lists are built
per expiration and then cross-matched. -/
def fetch_stock_iron_condor_records (symbol : String) (price : ℚ)
    (min_strike_pct max_strike_pct min_dte max_dte max_spread today : ℤ)
    (F : StrikeFmt) (put_map call_map : ExpMap) : List ICRecord :=
  put_map.flatMap (fun pm =>
    match expLookup call_map pm.1 with
    | none => []
    | some call_strike_map =>
      let valid_put := icValidPutStrikes price min_strike_pct max_strike_pct pm.2
      let valid_call := icValidCallStrikes price min_strike_pct max_strike_pct
        call_strike_map
      if valid_put.length < 2 ∨ valid_call.length < 2 then []
      else
        (icPutSpreads max_spread min_dte max_dte today F pm.2 valid_put).flatMap
          (fun ps =>
            (icCallSpreads max_spread min_dte max_dte today F call_strike_map
                valid_call).filterMap
              (icCombineOf symbol price ps)))

/-- The market data one symbol's quote and chain fetches produce: the quoted
price and the call / put expiration maps. -/
structure SymbolData where
  price : ℚ
  callMap : ExpMap
  putMap : ExpMap

/-- Environment modelling the upstream quote/chain fetches: `.error` models
a `SchwabAPIError` (or any other exception) raised while fetching this
symbol's data. -/
abbrev Env := String → Except String SymbolData

/-- `SchwabAPI._fetch_options_chain` (covered call, one symbol): on success
2 upstream calls (quote + chain) are counted. The price guard is Python
`if not price` (price falsy), so only a zero price is rejected here. -/
def fetch_options_chain (env : Env) (symbol : String)
    (min_strike_pct max_strike_pct min_dte max_dte today : ℤ) :
    Except String (List CCRecord × Nat) :=
  match env symbol with
  | .error e => .error e
  | .ok d =>
    if d.price = 0 then .error ("No valid price for " ++ symbol)
    else
      .ok (fetch_options_chain_records symbol d.price min_strike_pct
        max_strike_pct min_dte max_dte today d.callMap, 2)

/-- `SchwabAPI.fetch_options_data`: sequential per-symbol loop, appending
records and accumulating the call count; any per-symbol failure propagates
(there is no try/except here). No sort is applied. -/
def fetch_options_data (env : Env)
    (min_strike_pct max_strike_pct min_dte max_dte today : ℤ) :
    List String → Except String (List CCRecord × Nat)
  | [] => .ok ([], 0)
  | sym :: rest => do
    let (recs, calls) ← fetch_options_chain env sym min_strike_pct
      max_strike_pct min_dte max_dte today
    let (recs2, calls2) ← fetch_options_data env min_strike_pct max_strike_pct
      min_dte max_dte today rest
    pure (recs ++ recs2, calls + calls2)

/-- `SchwabAPI._fetch_stock_collar` (one symbol). The price guard is Python
`if not price or price <= 0`. -/
def fetch_stock_collar (env : Env) (symbol : String)
    (min_strike_pct max_strike_pct min_dte max_dte today : ℤ) :
    Except String (List CollarRecord × Nat) :=
  match env symbol with
  | .error e => .error e
  | .ok d =>
    if d.price ≤ 0 then .error ("Invalid price for " ++ symbol)
    else
      .ok (fetch_stock_collar_records symbol d.price min_strike_pct
        max_strike_pct min_dte max_dte today d.callMap d.putMap, 2)

/-- `SchwabAPI.fetch_collar_data`: the per-symbol try/except only re-raises,
so a per-symbol failure still aborts the whole loop. No sort is applied. -/
def fetch_collar_data (env : Env)
    (min_strike_pct max_strike_pct min_dte max_dte today : ℤ) :
    List String → Except String (List CollarRecord × Nat)
  | [] => .ok ([], 0)
  | sym :: rest => do
    let (recs, calls) ← fetch_stock_collar env sym min_strike_pct
      max_strike_pct min_dte max_dte today
    let (recs2, calls2) ← fetch_collar_data env min_strike_pct max_strike_pct
      min_dte max_dte today rest
    pure (recs ++ recs2, calls + calls2)

/-- `SchwabAPI._fetch_stock_call_spread` (one symbol). -/
def fetch_stock_call_spread (env : Env) (symbol : String)
    (min_strike_pct max_strike_pct min_dte max_dte max_spread today : ℤ)
    (F : StrikeFmt) : Except String (List CSRecord × Nat) :=
  match env symbol with
  | .error e => .error e
  | .ok d =>
    if d.price ≤ 0 then .error ("Invalid price for " ++ symbol)
    else
      .ok (fetch_stock_call_spread_records symbol d.price min_strike_pct
        max_strike_pct min_dte max_dte max_spread today F d.callMap, 2)

/-- `SchwabAPI.fetch_call_spread_data`: per-symbol loop; a failure aborts
the loop (the except clause re-raises). No sort is applied. -/
def fetch_call_spread_data (env : Env)
    (min_strike_pct max_strike_pct min_dte max_dte max_spread today : ℤ)
    (F : StrikeFmt) : List String → Except String (List CSRecord × Nat)
  | [] => .ok ([], 0)
  | sym :: rest => do
    let (recs, calls) ← fetch_stock_call_spread env sym min_strike_pct
      max_strike_pct min_dte max_dte max_spread today F
    let (recs2, calls2) ← fetch_call_spread_data env min_strike_pct
      max_strike_pct min_dte max_dte max_spread today F rest
    pure (recs ++ recs2, calls + calls2)

/-- `SchwabAPI._fetch_stock_put_spread` (one symbol). -/
def fetch_stock_put_spread (env : Env) (symbol : String)
    (min_strike_pct max_strike_pct min_dte max_dte max_spread today : ℤ)
    (F : StrikeFmt) : Except String (List PSRecord × Nat) :=
  match env symbol with
  | .error e => .error e
  | .ok d =>
    if d.price ≤ 0 then .error ("Invalid price for " ++ symbol)
    else
      .ok (fetch_stock_put_spread_records symbol d.price min_strike_pct
        max_strike_pct min_dte max_dte max_spread today F d.putMap, 2)

/-- `SchwabAPI.fetch_put_spread_data`: per-symbol loop; a failure aborts the
loop. No sort is applied. -/
def fetch_put_spread_data (env : Env)
    (min_strike_pct max_strike_pct min_dte max_dte max_spread today : ℤ)
    (F : StrikeFmt) : List String → Except String (List PSRecord × Nat)
  | [] => .ok ([], 0)
  | sym :: rest => do
    let (recs, calls) ← fetch_stock_put_spread env sym min_strike_pct
      max_strike_pct min_dte max_dte max_spread today F
    let (recs2, calls2) ← fetch_put_spread_data env min_strike_pct
      max_strike_pct min_dte max_dte max_spread today F rest
    pure (recs ++ recs2, calls + calls2)

/-- A record of `fetch_put_call_spread_data`: one call-spread or put-spread
record with its `strategyType` tag. -/
inductive PCRecord where
  | callSpread (r : CSRecord)
  | putSpread (r : PSRecord)
deriving DecidableEq

/-- The `strategyType` value written into the record. -/
def PCRecord.strategyType : PCRecord → String
  | .callSpread _ => "call_spread"
  | .putSpread _ => "put_spread"

/-- The sort key `x.get("annPctGain", 0)` (both record shapes carry the
field). -/
def PCRecord.annPctGain : PCRecord → ℚ
  | .callSpread r => r.annPctGain
  | .putSpread r => r.annPctGain

/-- Comparison used to model the stable Python sort
`records.sort(key=annPctGain, reverse=True)`. -/
def pcLe (a b : PCRecord) : Bool :=
  decide (b.annPctGain ≤ a.annPctGain)

/-- Aggregation loop of `SchwabAPI.fetch_put_call_spread_data` (before the
final sort): per symbol, the call-spread evaluation (2 calls) then the
put-spread evaluation (2 calls), records tagged and appended in that
order. -/
def fetch_put_call_spread_loop (env : Env)
    (min_strike_pct max_strike_pct min_dte max_dte max_spread today : ℤ)
    (F : StrikeFmt) : List String → Except String (List PCRecord × Nat)
  | [] => .ok ([], 0)
  | sym :: rest => do
    let (csr, n1) ← fetch_stock_call_spread env sym min_strike_pct
      max_strike_pct min_dte max_dte max_spread today F
    let (psr, n2) ← fetch_stock_put_spread env sym min_strike_pct
      max_strike_pct min_dte max_dte max_spread today F
    let (restr, n3) ← fetch_put_call_spread_loop env min_strike_pct
      max_strike_pct min_dte max_dte max_spread today F rest
    pure ((csr.map PCRecord.callSpread) ++ (psr.map PCRecord.putSpread) ++ restr,
      n1 + n2 + n3)

/-- `SchwabAPI.fetch_put_call_spread_data`: the aggregation loop, then one
stable sort of the combined list by `annPctGain` descending. -/
def fetch_put_call_spread_data (env : Env)
    (min_strike_pct max_strike_pct min_dte max_dte max_spread today : ℤ)
    (F : StrikeFmt) (symbols : List String) :
    Except String (List PCRecord × Nat) := do
  let (recs, n) ← fetch_put_call_spread_loop env min_strike_pct max_strike_pct
    min_dte max_dte max_spread today F symbols
  pure (recs.mergeSort pcLe, n)

/-- `SchwabAPI._fetch_stock_iron_condor` (one symbol). -/
def fetch_stock_iron_condor (env : Env) (symbol : String)
    (min_strike_pct max_strike_pct min_dte max_dte max_spread today : ℤ)
    (F : StrikeFmt) : Except String (List ICRecord × Nat) :=
  match env symbol with
  | .error e => .error e
  | .ok d =>
    if d.price ≤ 0 then .error ("Invalid price for " ++ symbol)
    else
      .ok (fetch_stock_iron_condor_records symbol d.price min_strike_pct
        max_strike_pct min_dte max_dte max_spread today F d.putMap d.callMap, 2)

/-- Comparison used to model the stable sort of the iron-condor list. -/
def icLe (a b : ICRecord) : Bool :=
  decide (b.annPctGain ≤ a.annPctGain)

/-- Aggregation loop of `SchwabAPI.fetch_iron_condor_data` (before the
final sort). -/
def fetch_iron_condor_loop (env : Env)
    (min_strike_pct max_strike_pct min_dte max_dte max_spread today : ℤ)
    (F : StrikeFmt) : List String → Except String (List ICRecord × Nat)
  | [] => .ok ([], 0)
  | sym :: rest => do
    let (recs, calls) ← fetch_stock_iron_condor env sym min_strike_pct
      max_strike_pct min_dte max_dte max_spread today F
    let (recs2, calls2) ← fetch_iron_condor_loop env min_strike_pct
      max_strike_pct min_dte max_dte max_spread today F rest
    pure (recs ++ recs2, calls + calls2)

/-- `SchwabAPI.fetch_iron_condor_data`: the loop, then one stable sort by
`annPctGain` descending. -/
def fetch_iron_condor_data (env : Env)
    (min_strike_pct max_strike_pct min_dte max_dte max_spread today : ℤ)
    (F : StrikeFmt) (symbols : List String) :
    Except String (List ICRecord × Nat) := do
  let (recs, n) ← fetch_iron_condor_loop env min_strike_pct max_strike_pct
    min_dte max_dte max_spread today F symbols
  pure (recs.mergeSort icLe, n)

/-- A JSON request body as seen by `app._parse_payload`: an outer `none`
models an absent key; for the numeric fields an inner `none` models a value
on which `int(...)` raises. Non-string entries of `symbols` are not
representable; they are filtered out by the source before any use. -/
structure RawPayload where
  symbols : Option (List String)
  minStrikePct : Option (Option ℤ)
  maxStrikePct : Option (Option ℤ)
  minDte : Option (Option ℤ)
  maxDte : Option (Option ℤ)
  maxSpread : Option (Option ℤ)
deriving DecidableEq

/-- The dict returned by `app._parse_payload`. `max_spread` stays absent
when the request has no `maxSpread` key. -/
structure ParsedPayload where
  symbols : List String
  min_strike_pct : ℤ
  max_strike_pct : ℤ
  min_dte : ℤ
  max_dte : ℤ
  max_spread : Option ℤ
deriving DecidableEq

/-- `app._parse_payload`: required-keys check, symbol filtering and
uppercasing, integer conversions, then the optional `maxSpread` handling
with its `[1, 30]` range check. A `.error` models a raised `ValueError`. -/
def parse_payload (d : RawPayload) : Except String ParsedPayload :=
  match d.symbols, d.minStrikePct, d.maxStrikePct, d.minDte, d.maxDte with
  | some syms, some v1, some v2, some v3, some v4 =>
    if (syms.filter (fun s => s.trim ≠ "")).isEmpty then
      .error "At least one symbol is required."
    else
      match v1, v2, v3, v4 with
      | some minSp, some maxSp, some minD, some maxD =>
        match d.maxSpread with
        | none =>
          .ok ⟨(syms.filter (fun s => s.trim ≠ "")).map String.toUpper,
            minSp, maxSp, minD, maxD, none⟩
        | some none => .error "Max spread must be an integer."
        | some (some ms) =>
          if ms < 1 ∨ ms > 30 then
            .error "Max spread must be between 1 and 30."
          else
            .ok ⟨(syms.filter (fun s => s.trim ≠ "")).map String.toUpper,
              minSp, maxSp, minD, maxD, some ms⟩
      | _, _, _, _ =>
        .error "Strike percentages and DTE values must be integers."
  | _, _, _, _, _ =>
    .error "Payload must include keys: symbols, strike pcts, dtes"

/-- HTTP outcome of an API route: `ok` is the 200 response,
`invalidRequest` the 400 response produced from a caught `ValueError`,
`apiError` the 502 response from a caught `SchwabAPIError`, and `uncaught`
an exception no handler catches (Flask's 500). -/
inductive ApiResult (α : Type) where
  | ok (records : α) (apiCalls : Nat)
  | invalidRequest (msg : String)
  | apiError (msg : String)
  | uncaught (msg : String)
deriving DecidableEq

/-- True exactly for the 400 `ValueError` rejection. -/
def ApiResult.isInvalidRequest {α : Type} : ApiResult α → Bool
  | .invalidRequest _ => true
  | _ => false

/-- The message of the `TypeError` Python raises when
`fetch_call_spread_data(**payload)` is called without `max_spread`. -/
def missingMaxSpreadMsg : String :=
  "TypeError: fetch_call_spread_data missing required argument max_spread"

/-- `app.fetch_call_spread` (the `/api/fetch-call-spread` route): parse the
payload (ValueError becomes a 400 before any fetch); if the parsed payload
has no `max_spread`, the keyword expansion raises a `TypeError` that no
except clause catches (a 500, still before any fetch); otherwise run the
evaluation, turning a `SchwabAPIError` into a 502. -/
def fetch_call_spread_route (env : Env) (today : ℤ) (F : StrikeFmt)
    (d : RawPayload) : ApiResult (List CSRecord) :=
  match parse_payload d with
  | .error e => .invalidRequest e
  | .ok p =>
    match p.max_spread with
    | none => .uncaught missingMaxSpreadMsg
    | some ms =>
      match fetch_call_spread_data env p.min_strike_pct p.max_strike_pct
          p.min_dte p.max_dte ms today F p.symbols with
      | .error e => .apiError e
      | .ok (recs, n) => .ok recs n

/-- One entry of the `stocks` array of the put-call-spread batch
configuration (`stock_config_jsons/put_call_spread.json`). A `none`
parameter falls back to the config's `defaultParams`. -/
structure StockCfg where
  symbol : String
  enabled : Bool
  minStrikePct : Option ℤ
  maxStrikePct : Option ℤ
  minDte : Option ℤ
  maxDte : Option ℤ
  maxSpread : Option ℤ
  notes : Option String
deriving DecidableEq

/-- The `defaultParams` of the batch configuration. -/
structure DefaultParams where
  minStrikePct : ℤ
  maxStrikePct : ℤ
  minDte : ℤ
  maxDte : ℤ
  maxSpread : ℤ
deriving DecidableEq

/-- A batch record: a put-call-spread record plus the optional `stockNotes`
field the batch route adds when the stock's `notes` value is truthy. -/
structure BatchRecord where
  record : PCRecord
  stockNotes : Option String
deriving DecidableEq

/-- The `summary` object of the batch response. -/
structure BatchSummary where
  total_stocks : Nat
  successful : Nat
  failed : Nat
  errors : List (String × String)
deriving DecidableEq

/-- The 200 body of the batch route. -/
structure BatchResult where
  records : List BatchRecord
  apiCalls : Nat
  summary : BatchSummary
deriving DecidableEq

/-- Outcome of the batch route on a loaded configuration: `err` is the 400
response for an empty enabled-stock list. -/
inductive BatchResponse where
  | ok (r : BatchResult)
  | err (msg : String)
deriving DecidableEq

/-- The `stockNotes` value attached to a stock's records:
`if stock.get("notes"):` is a truthiness test, so an empty string is not
attached. -/
def effNotes (s : StockCfg) : Option String :=
  match s.notes with
  | some n => if n = "" then none else some n
  | none => none

/-- The per-stock evaluation of the batch route:
`fetch_put_call_spread_data` on the one-element symbol list with the
stock's parameters, each defaulted from `defaultParams`. -/
def batchFetchStock (env : Env) (today : ℤ) (F : StrikeFmt)
    (dp : DefaultParams) (s : StockCfg) : Except String (List PCRecord × Nat) :=
  fetch_put_call_spread_data env (s.minStrikePct.getD dp.minStrikePct)
    (s.maxStrikePct.getD dp.maxStrikePct) (s.minDte.getD dp.minDte)
    (s.maxDte.getD dp.maxDte) (s.maxSpread.getD dp.maxSpread) today F
    [s.symbol]

/-- Comparison used to model the stable final sort of the batch route. -/
def batchLe (a b : BatchRecord) : Bool :=
  decide (b.record.annPctGain ≤ a.record.annPctGain)

/-- The per-stock loop of `app.batch_run_put_call_spread`: every exception
of one stock's evaluation is caught, recorded in `errors` and the loop
continues; a failed stock contributes no records and no api calls.
Returns (records, apiCalls, successful, failed, errors). -/
def batch_loop (env : Env) (today : ℤ) (F : StrikeFmt) (dp : DefaultParams) :
    List StockCfg → List BatchRecord × Nat × Nat × Nat × List (String × String)
  | [] => ([], 0, 0, 0, [])
  | s :: rest =>
    let tail := batch_loop env today F dp rest
    match batchFetchStock env today F dp s with
    | .ok (rs, n) =>
      (rs.map (fun r => BatchRecord.mk r (effNotes s)) ++ tail.1, n + tail.2.1,
        1 + tail.2.2.1, tail.2.2.2.1, tail.2.2.2.2)
    | .error e =>
      (tail.1, tail.2.1, tail.2.2.1, 1 + tail.2.2.2.1,
        (s.symbol, e) :: tail.2.2.2.2)

/-- `app.batch_run_put_call_spread` on a loaded configuration: filter the
enabled stocks (`stock.get("enabled", True)`), reject an empty selection,
run every enabled stock to completion, then stable-sort all collected
records by `annPctGain` descending. -/
def batch_run_put_call_spread (env : Env) (today : ℤ) (F : StrikeFmt)
    (dp : DefaultParams) (stocks : List StockCfg) : BatchResponse :=
  let enabled := stocks.filter (fun s => s.enabled)
  if enabled.isEmpty then .err "No enabled stocks in configuration"
  else
    let r := batch_loop env today F dp enabled
    .ok ⟨(r.1).mergeSort batchLe, r.2.1,
      ⟨enabled.length, r.2.2.1, r.2.2.2.1, r.2.2.2.2⟩⟩

/-! Concrete market data used by the examples. The formatters of `intFmt`
print an integer-valued strike as its numerator, matching the integer
string keys used in the example chains. -/

def intFmt : StrikeFmt :=
  ⟨fun q => toString q.num, fun q => toString (pyInt q),
    fun q => toString q.num ++ ".0"⟩

/-- A call chain with strikes 95 (bid=ask=7) and 100 (bid=ask=3), both
expiring on day 30. -/
def csChainA : ExpMap :=
  [("e1", [⟨"100", 100, [⟨30, 3, 3⟩]⟩, ⟨"95", 95, [⟨30, 7, 7⟩]⟩])]

/-- Environment: every symbol quotes at 100 with `csChainA` calls and no
puts. -/
def envA : Env := fun _ => .ok ⟨100, csChainA, []⟩

/-- The one call-spread record of `csChainA` at price 100, strike window
[50, 100], dte window [1, 60], max spread 10. -/
def csRec0 : CSRecord :=
  ⟨"A", 100, 30, 30, 100, 95, 100, 5, 7, 7, 7, 3, 3, 3, 400, 100, 25, 1825/6⟩

/-- Environment whose symbol "B" fails to fetch. -/
def envBatch : Env := fun sym =>
  if sym = "B" then .error "Quote fetch failed for B: 500"
  else .ok ⟨100, csChainA, []⟩

/-- Three enabled stocks; the second one's data fetch fails under
`envBatch`. -/
def batchStocks : List StockCfg :=
  [⟨"A", true, none, none, none, none, none, none⟩,
   ⟨"B", true, none, none, none, none, none, none⟩,
   ⟨"C", true, none, none, none, none, none, none⟩]

/-- Default parameters of the batch configuration example. -/
def dp0 : DefaultParams := ⟨50, 100, 1, 60, 10⟩

/-- Put chain for the iron-condor example: strikes 85 (bid=ask=1) and 90
(bid=ask=3). -/
def icChainPut : ExpMap :=
  [("e1", [⟨"85", 85, [⟨30, 1, 1⟩]⟩, ⟨"90", 90, [⟨30, 3, 3⟩]⟩])]

/-- Call chain for the iron-condor example: strikes 110 (bid=ask=3) and 115
(bid=ask=1). -/
def icChainCall : ExpMap :=
  [("e1", [⟨"110", 110, [⟨30, 3, 3⟩]⟩, ⟨"115", 115, [⟨30, 1, 1⟩]⟩])]

/-- The one iron-condor record of the example chains at price 100,
strike percentages [80, 90], dte window [1, 60], max spread 5. -/
def icRec0 : ICRecord :=
  ⟨"X", 100, 30, 30, 5, 85, 90, 90, 1, 1, 1, 3, 3, 3, 200,
    110, 115, 110, 3, 3, 3, 1, 1, 1, 200, 400, 100, 400, 14600/3⟩

/-- Covered-call environment for the ranker example: symbol "A" has a
slow-gain contract, symbol "B" a fast-gain one. -/
def envC2 : Env := fun sym =>
  if sym = "B" then
    .ok ⟨100, [("e1", [⟨"110", 110, [⟨10, 2, 2⟩]⟩])], []⟩
  else
    .ok ⟨100, [("e1", [⟨"105", 105, [⟨50, 2, 2⟩]⟩])], []⟩

/-- A covered-call chain whose only contract has `ask < bid` (bid 3,
ask 2). -/
def ccBadChain : ExpMap :=
  [("e1", [⟨"110", 110, [⟨30, 3, 2⟩]⟩])]

/-- A covered-call chain whose only strike, 90, lies strictly below
`price * minStrikePct / 100 = 90.45` at price 100.5. -/
def ccTruncChain : ExpMap :=
  [("e1", [⟨"90", 90, [⟨30, 10, 12⟩]⟩])]

/-- Collar data whose only contract pair expires 5 days in the past
(expiration day -5 with `today = 0`). -/
def collarCallMapNeg : ExpMap := [("e1", [⟨"110", 110, [⟨-5, 5, 5⟩]⟩])]

/-- Put side of the expired collar example. -/
def collarPutMapNeg : ExpMap := [("e1", [⟨"110", 110, [⟨-5, 1, 1⟩]⟩])]

/-- A put chain producing a put-credit-spread record with negative
`maxRisk`: strikes 50 (mid 0.5) and 51 (mid 2), so the credit 150 exceeds
the 100 width. -/
def psBadChain : ExpMap :=
  [("e1", [⟨"50", 50, [⟨30, 2/5, 3/5⟩]⟩, ⟨"51", 51, [⟨30, 3/2, 5/2⟩]⟩])]

/-- The record produced from `psBadChain`. -/
def psRec0 : PSRecord :=
  ⟨"X", 100, 30, 30, 51, 50, 51, 1, 2/5, 3/5, 1/2, 3/2, 5/2, 2, 150, -50,
    150, 0, 0⟩

/-- A payload with every required key present and `maxSpread` absent. -/
def payloadNoMaxSpread : RawPayload :=
  ⟨some ["aapl"], some (some 50), some (some 100), some (some 1),
    some (some 60), none⟩

/-- A payload whose `maxSpread` is 31, outside `[1, 30]`. -/
def payloadWideSpread : RawPayload :=
  ⟨some ["aapl"], some (some 50), some (some 100), some (some 1),
    some (some 60), some (some 31)⟩

/-- An environment that fails on every symbol; used where the claim is that
the environment is never consulted. -/
def envFail : Env := fun _ => .error "no data"

/-! Generic lemmas about the loop helpers. -/

theorem withRest_mem_fst {α : Type} {l : List α} {p : α × List α}
    (h : p ∈ withRest l) : p.1 ∈ l := by
  induction l with
  | nil => simp [withRest] at h
  | cons a as ih =>
    simp only [withRest, List.mem_cons] at h
    rcases h with h | h
    · subst h; exact List.mem_cons_self a as
    · exact List.mem_cons_of_mem _ (ih h)

theorem withRest_mem_rest {α : Type} {l : List α} {p : α × List α}
    (h : p ∈ withRest l) : ∀ x ∈ p.2, x ∈ l := by
  induction l with
  | nil => simp [withRest] at h
  | cons a as ih =>
    simp only [withRest, List.mem_cons] at h
    rcases h with h | h
    · subst h; intro x hx; exact List.mem_cons_of_mem _ hx
    · intro x hx; exact List.mem_cons_of_mem _ (ih h x hx)

/-! Record-shape lemmas for the put-spread evaluator. -/

theorem psRecordOf_some {symbol : String} {price : ℚ} {max_spread : ℤ}
    {F : StrikeFmt} {m : StrikeMap} {ls : ℚ} {lo : OptionQuote} {dte : ℤ}
    {hs : ℚ} {rec : PSRecord}
    (h : psRecordOf symbol price max_spread F m ls lo dte hs = some rec) :
    rec.symbol = symbol ∧ rec.price = price ∧ rec.dte = dte ∧
    rec.lowerStrike = ls ∧ rec.higherStrike = hs ∧
    rec.spreadWidth = hs - ls ∧ rec.spreadWidth ≤ (max_spread : ℚ) ∧
    rec.lowerBid = lo.bid ∧ rec.lowerAsk = lo.ask ∧
    0 < rec.higherBid ∧ rec.higherBid ≤ rec.higherAsk ∧
    0 < rec.creditReceived ∧
    rec.maxRisk = rec.spreadWidth * 100 - rec.creditReceived ∧
    rec.maxGain = rec.creditReceived ∧
    (rec.maxRisk ≤ 0 → rec.pctGain = 0) ∧
    rec.annPctGain = (if 0 < rec.dte then (rec.pctGain * 365) / (rec.dte : ℚ) else 0) := by
  unfold psRecordOf at h
  split at h
  · exact absurd h (by simp)
  split at h
  · exact absurd h (by simp)
  split at h
  · exact absurd h (by simp)
  split at h
  · exact absurd h (by simp)
  split at h
  · exact absurd h (by simp)
  split at h
  · exact absurd h (by simp)
  rw [Option.some.injEq] at h
  subst h
  push_neg at *
  refine ⟨rfl, rfl, rfl, rfl, rfl, rfl, by dsimp only; linarith, rfl, rfl,
    by dsimp only; linarith, by dsimp only; linarith, by dsimp only; linarith,
    rfl, rfl, ?_, rfl⟩
  intro h0
  exact if_neg (not_lt.mpr h0)

theorem psPerLower_mem {symbol : String} {price : ℚ}
    {max_spread min_dte max_dte today : ℤ} {F : StrikeFmt} {m : StrikeMap}
    {lower : ℚ} {highers : List ℚ} {rec : PSRecord}
    (h : rec ∈ psPerLower symbol price max_spread min_dte max_dte today F m
      lower highers) :
    rec.higherStrike ∈ highers ∧ rec.lowerStrike = lower ∧
    min_dte ≤ rec.dte ∧ rec.dte ≤ max_dte ∧
    0 < rec.lowerBid ∧ rec.lowerBid ≤ rec.lowerAsk ∧
    0 < rec.higherBid ∧ rec.higherBid ≤ rec.higherAsk ∧
    0 < rec.creditReceived ∧
    rec.spreadWidth = rec.higherStrike - rec.lowerStrike ∧
    rec.spreadWidth ≤ (max_spread : ℚ) ∧
    rec.maxRisk = rec.spreadWidth * 100 - rec.creditReceived ∧
    rec.maxGain = rec.creditReceived ∧
    (rec.maxRisk ≤ 0 → rec.pctGain = 0) ∧
    rec.annPctGain = (if 0 < rec.dte then (rec.pctGain * 365) / (rec.dte : ℚ) else 0) ∧
    rec.symbol = symbol ∧ rec.price = price := by
  unfold psPerLower at h
  split at h
  · simp at h
  · split at h
    · simp at h
    · rename_i lower_opt _
      split at h
      · simp at h
      · split at h
        · simp at h
        · rename_i hdte hquotes
          rw [List.mem_filterMap] at h
          obtain ⟨hstrike, hmem, heq⟩ := h
          obtain ⟨hsym, hprice, hdteeq, hls, hhs, hsw, hswle, hlbid, hlask,
            hhbid, hhba, hcred, hrisk, hgain, hpct, hann⟩ := psRecordOf_some heq
          push_neg at hdte hquotes
          refine ⟨hhs ▸ hmem, hls, ?_, ?_, ?_, ?_, hhbid, hhba, hcred,
            by rw [hsw, hls, hhs], hswle, hrisk, hgain, hpct, hann, hsym, hprice⟩
          · rw [hdteeq]; exact hdte.1
          · rw [hdteeq]; exact hdte.2
          · rw [hlbid]; exact hquotes.1
          · rw [hlbid, hlask]; exact hquotes.2.2

theorem fetch_stock_put_spread_records_mem {symbol : String} {price : ℚ}
    {min_strike_pct max_strike_pct min_dte max_dte max_spread today : ℤ}
    {F : StrikeFmt} {put_map : ExpMap} {rec : PSRecord}
    (h : rec ∈ fetch_stock_put_spread_records symbol price min_strike_pct
      max_strike_pct min_dte max_dte max_spread today F put_map) :
    price * ((min_strike_pct : ℚ) / 100) ≤ rec.lowerStrike ∧
    rec.lowerStrike ≤ price * ((max_strike_pct : ℚ) / 100) ∧
    price * ((min_strike_pct : ℚ) / 100) ≤ rec.higherStrike ∧
    rec.higherStrike ≤ price * ((max_strike_pct : ℚ) / 100) ∧
    min_dte ≤ rec.dte ∧ rec.dte ≤ max_dte ∧
    0 < rec.lowerBid ∧ rec.lowerBid ≤ rec.lowerAsk ∧
    0 < rec.higherBid ∧ rec.higherBid ≤ rec.higherAsk ∧
    0 < rec.creditReceived ∧
    rec.spreadWidth = rec.higherStrike - rec.lowerStrike ∧
    rec.spreadWidth ≤ (max_spread : ℚ) ∧
    rec.maxRisk = rec.spreadWidth * 100 - rec.creditReceived ∧
    rec.maxGain = rec.creditReceived ∧
    (rec.maxRisk ≤ 0 → rec.pctGain = 0) ∧
    rec.annPctGain = (if 0 < rec.dte then (rec.pctGain * 365) / (rec.dte : ℚ) else 0) ∧
    rec.symbol = symbol ∧ rec.price = price := by
  unfold fetch_stock_put_spread_records at h
  rw [List.mem_flatMap] at h
  obtain ⟨em, _, h⟩ := h
  dsimp only at h
  split at h
  · simp at h
  · rw [List.mem_flatMap] at h
    obtain ⟨p, hp, h⟩ := h
    obtain ⟨hhs, hls, rest⟩ := psPerLower_mem h
    have hlo : rec.lowerStrike ∈ (((em.2.map (fun e => e.strike)).mergeSort
        (fun a b => decide (a ≤ b))).filter
      (fun s => decide (price * ((min_strike_pct : ℚ) / 100) ≤ s) &&
        decide (s ≤ price * ((max_strike_pct : ℚ) / 100)))) := by
      rw [hls]; exact withRest_mem_fst hp
    have hhi : rec.higherStrike ∈ (((em.2.map (fun e => e.strike)).mergeSort
        (fun a b => decide (a ≤ b))).filter
      (fun s => decide (price * ((min_strike_pct : ℚ) / 100) ≤ s) &&
        decide (s ≤ price * ((max_strike_pct : ℚ) / 100)))) := by
      exact withRest_mem_rest hp _ hhs
    rw [List.mem_filter, Bool.and_eq_true, decide_eq_true_iff, decide_eq_true_iff] at hlo hhi
    exact ⟨hlo.2.1, hlo.2.2, hhi.2.1, hhi.2.2, rest⟩

/-! Record-shape lemmas for the call-spread evaluator. -/

theorem csRecordOf_some {symbol : String} {price : ℚ} {max_spread : ℤ}
    {F : StrikeFmt} {m : StrikeMap} {us : ℚ} {uo : OptionQuote} {dte : ℤ}
    {ls : ℚ} {rec : CSRecord}
    (h : csRecordOf symbol price max_spread F m us uo dte ls = some rec) :
    rec.symbol = symbol ∧ rec.price = price ∧ rec.dte = dte ∧
    rec.upperStrike = us ∧ rec.lowerStrike = ls ∧
    rec.spreadWidth = us - ls ∧ rec.spreadWidth ≤ (max_spread : ℚ) ∧
    rec.upperBid = uo.bid ∧ rec.upperAsk = uo.ask ∧
    0 < rec.lowerBid ∧ rec.lowerBid ≤ rec.lowerAsk ∧
    0 < rec.paid ∧ 0 < rec.maxGain ∧
    rec.paid = (rec.lowerMid - rec.upperMid) * 100 ∧
    rec.maxGain = rec.spreadWidth * 100 - rec.paid ∧
    rec.annPctGain = (if 0 < rec.dte then (rec.pctGain * 365) / (rec.dte : ℚ) else 0) := by
  unfold csRecordOf at h
  split at h
  · exact absurd h (by simp)
  split at h
  · exact absurd h (by simp)
  split at h
  · exact absurd h (by simp)
  split at h
  · exact absurd h (by simp)
  split at h
  · exact absurd h (by simp)
  split at h
  · exact absurd h (by simp)
  rw [Option.some.injEq] at h
  subst h
  push_neg at *
  refine ⟨rfl, rfl, rfl, rfl, rfl, rfl, by dsimp only; linarith, rfl, rfl,
    by dsimp only; linarith, by dsimp only; linarith, by dsimp only; linarith,
    by dsimp only; linarith, rfl, rfl, rfl⟩

theorem csPerUpper_mem {symbol : String} {price : ℚ}
    {max_spread min_dte max_dte today : ℤ} {F : StrikeFmt} {m : StrikeMap}
    {upper : ℚ} {lowers : List ℚ} {rec : CSRecord}
    (h : rec ∈ csPerUpper symbol price max_spread min_dte max_dte today F m
      upper lowers) :
    rec.lowerStrike ∈ lowers ∧ rec.upperStrike = upper ∧
    min_dte ≤ rec.dte ∧ rec.dte ≤ max_dte ∧
    0 < rec.upperBid ∧ rec.upperBid ≤ rec.upperAsk ∧
    0 < rec.lowerBid ∧ rec.lowerBid ≤ rec.lowerAsk ∧
    0 < rec.paid ∧ 0 < rec.maxGain ∧
    rec.spreadWidth = rec.upperStrike - rec.lowerStrike ∧
    rec.spreadWidth ≤ (max_spread : ℚ) ∧
    rec.paid = (rec.lowerMid - rec.upperMid) * 100 ∧
    rec.maxGain = rec.spreadWidth * 100 - rec.paid ∧
    rec.annPctGain = (if 0 < rec.dte then (rec.pctGain * 365) / (rec.dte : ℚ) else 0) ∧
    rec.symbol = symbol ∧ rec.price = price := by
  unfold csPerUpper at h
  split at h
  · simp at h
  · split at h
    · simp at h
    · rename_i upper_opt _
      split at h
      · simp at h
      · split at h
        · simp at h
        · rename_i hdte hquotes
          rw [List.mem_filterMap] at h
          obtain ⟨lstrike, hmem, heq⟩ := h
          obtain ⟨hsym, hprice, hdteeq, hus, hls, hsw, hswle, hubid, huask,
            hlbid, hlba, hpaid, hgain, hpaideq, hgaineq, hann⟩ := csRecordOf_some heq
          push_neg at hdte hquotes
          refine ⟨hls ▸ hmem, hus, ?_, ?_, ?_, ?_, hlbid, hlba, hpaid, hgain,
            by rw [hsw, hls, hus], hswle, hpaideq, hgaineq, hann, hsym, hprice⟩
          · rw [hdteeq]; exact hdte.1
          · rw [hdteeq]; exact hdte.2
          · rw [hubid]; exact hquotes.1
          · rw [hubid, huask]; exact hquotes.2.2

theorem fetch_stock_call_spread_records_mem {symbol : String} {price : ℚ}
    {min_strike_pct max_strike_pct min_dte max_dte max_spread today : ℤ}
    {F : StrikeFmt} {call_map : ExpMap} {rec : CSRecord}
    (h : rec ∈ fetch_stock_call_spread_records symbol price min_strike_pct
      max_strike_pct min_dte max_dte max_spread today F call_map) :
    price * ((min_strike_pct : ℚ) / 100) ≤ rec.lowerStrike ∧
    rec.lowerStrike ≤ price * ((max_strike_pct : ℚ) / 100) ∧
    price * ((min_strike_pct : ℚ) / 100) ≤ rec.upperStrike ∧
    rec.upperStrike ≤ price * ((max_strike_pct : ℚ) / 100) ∧
    min_dte ≤ rec.dte ∧ rec.dte ≤ max_dte ∧
    0 < rec.upperBid ∧ rec.upperBid ≤ rec.upperAsk ∧
    0 < rec.lowerBid ∧ rec.lowerBid ≤ rec.lowerAsk ∧
    0 < rec.paid ∧ 0 < rec.maxGain ∧
    rec.spreadWidth = rec.upperStrike - rec.lowerStrike ∧
    rec.spreadWidth ≤ (max_spread : ℚ) ∧
    rec.paid = (rec.lowerMid - rec.upperMid) * 100 ∧
    rec.maxGain = rec.spreadWidth * 100 - rec.paid ∧
    rec.annPctGain = (if 0 < rec.dte then (rec.pctGain * 365) / (rec.dte : ℚ) else 0) ∧
    rec.symbol = symbol ∧ rec.price = price := by
  unfold fetch_stock_call_spread_records at h
  rw [List.mem_flatMap] at h
  obtain ⟨em, _, h⟩ := h
  dsimp only at h
  split at h
  · simp at h
  · rw [List.mem_flatMap] at h
    obtain ⟨p, hp, h⟩ := h
    obtain ⟨hlmem, hueq, rest⟩ := csPerUpper_mem h
    have hup : rec.upperStrike ∈ (((em.2.map (fun e => e.strike)).mergeSort
        (fun a b => decide (b ≤ a))).filter
      (fun s => decide (price * ((min_strike_pct : ℚ) / 100) ≤ s) &&
        decide (s ≤ price * ((max_strike_pct : ℚ) / 100)))) := by
      rw [hueq]; exact withRest_mem_fst hp
    have hlo : rec.lowerStrike ∈ (((em.2.map (fun e => e.strike)).mergeSort
        (fun a b => decide (b ≤ a))).filter
      (fun s => decide (price * ((min_strike_pct : ℚ) / 100) ≤ s) &&
        decide (s ≤ price * ((max_strike_pct : ℚ) / 100)))) := by
      exact withRest_mem_rest hp _ hlmem
    rw [List.mem_filter, Bool.and_eq_true, decide_eq_true_iff, decide_eq_true_iff] at hup hlo
    exact ⟨hlo.2.1, hlo.2.2, hup.2.1, hup.2.2, rest⟩

/-! Record-shape lemmas for the covered-call evaluator. -/

/-- Under the covered-call nonnegativity filters the `if dte` annualisation
guard agrees with the `if dte > 0` normalisation law: for an already
expired contract the two filters force the percentage (and hence the
annualised value) to zero. -/
theorem annPctCall_eq_of_filters {price strike bid ask : ℚ} {dte : ℤ}
    (hpct : 0 ≤ (calculate_metrics price strike bid ask dte 50).pctCall)
    (hann : 0 ≤ (calculate_metrics price strike bid ask dte 50).annPctCall) :
    (calculate_metrics price strike bid ask dte 50).annPctCall =
      (if 0 < dte then
        ((calculate_metrics price strike bid ask dte 50).pctCall * 365) / (dte : ℚ)
      else 0) := by
  unfold calculate_metrics at *
  dsimp only at *
  rcases lt_trichotomy dte 0 with hneg | hzero | hpos
  · rw [if_neg (by omega : ¬ 0 < dte)]
    rw [if_pos (by omega : dte ≠ 0)] at hann ⊢
    have hd : ((dte : ℚ)) < 0 := by exact_mod_cast hneg
    have hnum : 0 ≤ (if (price - (bid + 50 / 100 * (ask - bid))) * 100 ≠ 0 then
        (strike * 100 - (price - (bid + 50 / 100 * (ask - bid))) * 100) /
          ((price - (bid + 50 / 100 * (ask - bid))) * 100) * 100
      else 0) * 365 := by positivity
    have hle := div_nonpos_iff.mpr (Or.inl ⟨hnum, le_of_lt hd⟩)
    linarith
  · subst hzero
    simp
  · rw [if_pos hpos, if_pos (by omega : dte ≠ 0)]

theorem ccRecordOf_some {symbol : String} {price : ℚ}
    {min_strike max_strike min_dte max_dte today : ℤ} {e : StrikeEntry}
    {rec : CCRecord}
    (h : ccRecordOf symbol price min_strike max_strike min_dte max_dte today e
      = some rec) :
    rec.strike = e.strike ∧
    (min_strike : ℚ) ≤ rec.strike ∧ rec.strike ≤ (max_strike : ℚ) ∧
    min_dte ≤ rec.dte ∧ rec.dte ≤ max_dte ∧
    0 < rec.bid ∧ 0 < rec.ask ∧
    rec.metrics = calculate_metrics price rec.strike rec.bid rec.ask rec.dte 50 ∧
    0 ≤ rec.metrics.pctCall ∧ 0 ≤ rec.metrics.annPctCall ∧
    rec.symbol = symbol ∧ rec.price = price := by
  unfold ccRecordOf at h
  split at h
  · exact absurd h (by simp)
  split at h
  · exact absurd h (by simp)
  split at h
  · exact absurd h (by simp)
  split at h
  · exact absurd h (by simp)
  split at h
  · exact absurd h (by simp)
  rw [Option.some.injEq] at h
  subst h
  push_neg at *
  refine ⟨rfl, by dsimp only; linarith, by dsimp only; linarith,
    by dsimp only; linarith, by dsimp only; linarith,
    by dsimp only; linarith, by dsimp only; linarith, rfl,
    by dsimp only; linarith, by dsimp only; linarith, rfl, rfl⟩

theorem fetch_options_chain_records_mem {symbol : String} {price : ℚ}
    {min_strike_pct max_strike_pct min_dte max_dte today : ℤ}
    {call_map : ExpMap} {rec : CCRecord}
    (h : rec ∈ fetch_options_chain_records symbol price min_strike_pct
      max_strike_pct min_dte max_dte today call_map) :
    ((pyInt (price * ((min_strike_pct : ℚ) / 100)) : ℚ)) ≤ rec.strike ∧
    rec.strike ≤ ((pyInt (price * ((max_strike_pct : ℚ) / 100)) : ℚ)) ∧
    min_dte ≤ rec.dte ∧ rec.dte ≤ max_dte ∧
    0 < rec.bid ∧ 0 < rec.ask ∧
    rec.metrics = calculate_metrics price rec.strike rec.bid rec.ask rec.dte 50 ∧
    0 ≤ rec.metrics.pctCall ∧ 0 ≤ rec.metrics.annPctCall ∧
    rec.symbol = symbol ∧ rec.price = price := by
  unfold fetch_options_chain_records at h
  rw [List.mem_flatMap] at h
  obtain ⟨em, _, h⟩ := h
  rw [List.mem_filterMap] at h
  obtain ⟨e, _, heq⟩ := h
  obtain ⟨_, h2, h3, h4, h5, h6, h7, h8, h9, h10, h11, h12⟩ := ccRecordOf_some heq
  exact ⟨h2, h3, h4, h5, h6, h7, h8, h9, h10, h11, h12⟩

/-! Record-shape lemmas for the collar evaluator. -/

theorem collarRecordOf_some {symbol : String} {price : ℚ}
    {min_strike max_strike min_dte max_dte today : ℤ}
    {put_strikes : StrikeMap} {e : StrikeEntry} {rec : CollarRecord}
    (h : collarRecordOf symbol price min_strike max_strike min_dte max_dte today
      put_strikes e = some rec) :
    rec.strike = e.strike ∧
    (min_strike : ℚ) ≤ rec.strike ∧ rec.strike ≤ (max_strike : ℚ) ∧
    min_dte ≤ rec.dte ∧ rec.dte ≤ max_dte ∧
    0 < rec.callBid ∧ 0 < rec.callAsk ∧ rec.callBid ≤ rec.callAsk ∧
    0 < rec.putBid ∧ 0 < rec.putAsk ∧ rec.putBid ≤ rec.putAsk ∧
    rec.callMid = (rec.callBid + rec.callAsk) / 2 ∧
    rec.putMid = (rec.putBid + rec.putAsk) / 2 ∧
    rec.metrics = calculate_collar_metrics price rec.strike rec.callMid
      rec.putMid rec.dte ∧
    0 < rec.metrics.collar ∧
    rec.symbol = symbol ∧ rec.price = price := by
  unfold collarRecordOf at h
  split at h
  · exact absurd h (by simp)
  split at h
  · exact absurd h (by simp)
  split at h
  · split at h
    · exact absurd h (by simp)
    split at h
    · exact absurd h (by simp)
    split at h
    · exact absurd h (by simp)
    rw [Option.some.injEq] at h
    subst h
    push_neg at *
    refine ⟨rfl, ?_, ?_, ?_, ?_, ?_, ?_, ?_, ?_, ?_, ?_, rfl, rfl, rfl, ?_,
      rfl, rfl⟩ <;>
    · dsimp only
      simp only [lt_min_iff] at *
      linarith
  · exact absurd h (by simp)

theorem fetch_stock_collar_records_mem {symbol : String} {price : ℚ}
    {min_strike_pct max_strike_pct min_dte max_dte today : ℤ}
    {call_map put_map : ExpMap} {rec : CollarRecord}
    (h : rec ∈ fetch_stock_collar_records symbol price min_strike_pct
      max_strike_pct min_dte max_dte today call_map put_map) :
    ((pyInt (price * ((min_strike_pct : ℚ) / 100)) : ℚ)) ≤ rec.strike ∧
    rec.strike ≤ ((pyInt (price * ((max_strike_pct : ℚ) / 100)) : ℚ)) ∧
    min_dte ≤ rec.dte ∧ rec.dte ≤ max_dte ∧
    0 < rec.callBid ∧ 0 < rec.callAsk ∧ rec.callBid ≤ rec.callAsk ∧
    0 < rec.putBid ∧ 0 < rec.putAsk ∧ rec.putBid ≤ rec.putAsk ∧
    rec.metrics = calculate_collar_metrics price rec.strike rec.callMid
      rec.putMid rec.dte ∧
    0 < rec.metrics.collar ∧
    rec.symbol = symbol ∧ rec.price = price := by
  unfold fetch_stock_collar_records at h
  rw [List.mem_flatMap] at h
  obtain ⟨em, _, h⟩ := h
  split at h
  · simp at h
  · split at h
    · simp at h
    · rw [List.mem_filterMap] at h
      obtain ⟨e, _, heq⟩ := h
      obtain ⟨_, h2, h3, h4, h5, h6, h7, h8, h9, h10, h11, _, _, h14, h15,
        h16, h17⟩ := collarRecordOf_some heq
      exact ⟨h2, h3, h4, h5, h6, h7, h8, h9, h10, h11, h14, h15, h16, h17⟩

/-! Record-shape lemmas for the iron-condor evaluator. -/

theorem icPutCandOf_some {max_spread : ℤ} {F : StrikeFmt} {m : StrikeMap}
    {lower : ℚ} {lo : OptionQuote} {dte : ℤ} {higher : ℚ} {cand : SpreadCand}
    (h : icPutCandOf max_spread F m lower lo dte higher = some cand) :
    cand.lowerStrike = lower ∧ cand.higherStrike = higher ∧
    cand.spreadWidth = higher - lower ∧ cand.spreadWidth ≤ (max_spread : ℚ) ∧
    cand.lowerBid = lo.bid ∧ cand.lowerAsk = lo.ask ∧ cand.dte = dte ∧
    0 < cand.higherBid ∧ 0 < cand.higherAsk ∧
    cand.lowerAsk < cand.higherBid := by
  unfold icPutCandOf at h
  split at h
  · exact absurd h (by simp)
  split at h
  · exact absurd h (by simp)
  split at h
  · exact absurd h (by simp)
  split at h
  · exact absurd h (by simp)
  split at h
  · exact absurd h (by simp)
  rw [Option.some.injEq] at h
  subst h
  push_neg at *
  refine ⟨rfl, rfl, rfl, by dsimp only; linarith, rfl, rfl, rfl,
    by dsimp only; linarith, by dsimp only; linarith, by dsimp only; linarith⟩

theorem icCallCandOf_some {max_spread : ℤ} {F : StrikeFmt} {m : StrikeMap}
    {lower : ℚ} {lo : OptionQuote} {dte : ℤ} {higher : ℚ} {cand : SpreadCand}
    (h : icCallCandOf max_spread F m lower lo dte higher = some cand) :
    cand.lowerStrike = lower ∧ cand.higherStrike = higher ∧
    cand.spreadWidth = higher - lower ∧ cand.spreadWidth ≤ (max_spread : ℚ) ∧
    cand.lowerBid = lo.bid ∧ cand.lowerAsk = lo.ask ∧ cand.dte = dte ∧
    0 < cand.higherBid ∧ 0 < cand.higherAsk ∧
    cand.higherAsk < cand.lowerBid := by
  unfold icCallCandOf at h
  split at h
  · exact absurd h (by simp)
  split at h
  · exact absurd h (by simp)
  split at h
  · exact absurd h (by simp)
  split at h
  · exact absurd h (by simp)
  split at h
  · exact absurd h (by simp)
  rw [Option.some.injEq] at h
  subst h
  push_neg at *
  refine ⟨rfl, rfl, rfl, by dsimp only; linarith, rfl, rfl, rfl,
    by dsimp only; linarith, by dsimp only; linarith, by dsimp only; linarith⟩

theorem icPutCandsPerLower_mem {max_spread min_dte max_dte today : ℤ}
    {F : StrikeFmt} {m : StrikeMap} {lower : ℚ} {highers : List ℚ}
    {cand : SpreadCand}
    (h : cand ∈ icPutCandsPerLower max_spread min_dte max_dte today F m lower
      highers) :
    cand.lowerStrike = lower ∧ cand.higherStrike ∈ highers ∧
    cand.spreadWidth = cand.higherStrike - cand.lowerStrike ∧
    cand.spreadWidth ≤ (max_spread : ℚ) ∧
    min_dte ≤ cand.dte ∧ cand.dte ≤ max_dte ∧
    0 < cand.lowerBid ∧ 0 < cand.lowerAsk ∧
    0 < cand.higherBid ∧ 0 < cand.higherAsk ∧
    cand.lowerAsk < cand.higherBid := by
  unfold icPutCandsPerLower at h
  split at h
  · simp at h
  · split at h
    · simp at h
    · rename_i lower_opt _
      split at h
      · simp at h
      · split at h
        · simp at h
        · rename_i hdte hquotes
          rw [List.mem_filterMap] at h
          obtain ⟨hstrike, hmem, heq⟩ := h
          obtain ⟨hls, hhs, hsw, hswle, hlbid, hlask, hdteeq, hhbid, hhask,
            hadm⟩ := icPutCandOf_some heq
          push_neg at hdte hquotes
          refine ⟨hls, hhs ▸ hmem, by rw [hsw, hls, hhs], hswle, ?_, ?_, ?_,
            ?_, hhbid, hhask, hadm⟩
          · rw [hdteeq]; exact hdte.1
          · rw [hdteeq]; exact hdte.2
          · rw [hlbid]; exact hquotes.1
          · rw [hlask]; exact hquotes.2

theorem icCallCandsPerLower_mem {max_spread min_dte max_dte today : ℤ}
    {F : StrikeFmt} {m : StrikeMap} {lower : ℚ} {highers : List ℚ}
    {cand : SpreadCand}
    (h : cand ∈ icCallCandsPerLower max_spread min_dte max_dte today F m lower
      highers) :
    cand.lowerStrike = lower ∧ cand.higherStrike ∈ highers ∧
    cand.spreadWidth = cand.higherStrike - cand.lowerStrike ∧
    cand.spreadWidth ≤ (max_spread : ℚ) ∧
    min_dte ≤ cand.dte ∧ cand.dte ≤ max_dte ∧
    0 < cand.lowerBid ∧ 0 < cand.lowerAsk ∧
    0 < cand.higherBid ∧ 0 < cand.higherAsk ∧
    cand.higherAsk < cand.lowerBid := by
  unfold icCallCandsPerLower at h
  split at h
  · simp at h
  · split at h
    · simp at h
    · rename_i lower_opt _
      split at h
      · simp at h
      · split at h
        · simp at h
        · rename_i hdte hquotes
          rw [List.mem_filterMap] at h
          obtain ⟨hstrike, hmem, heq⟩ := h
          obtain ⟨hls, hhs, hsw, hswle, hlbid, hlask, hdteeq, hhbid, hhask,
            hadm⟩ := icCallCandOf_some heq
          push_neg at hdte hquotes
          refine ⟨hls, hhs ▸ hmem, by rw [hsw, hls, hhs], hswle, ?_, ?_, ?_,
            ?_, hhbid, hhask, hadm⟩
          · rw [hdteeq]; exact hdte.1
          · rw [hdteeq]; exact hdte.2
          · rw [hlbid]; exact hquotes.1
          · rw [hlask]; exact hquotes.2

theorem icPutSpreads_mem {max_spread min_dte max_dte today : ℤ}
    {F : StrikeFmt} {m : StrikeMap} {valid : List ℚ} {cand : SpreadCand}
    (h : cand ∈ icPutSpreads max_spread min_dte max_dte today F m valid) :
    cand.lowerStrike ∈ valid ∧ cand.higherStrike ∈ valid ∧
    cand.spreadWidth = cand.higherStrike - cand.lowerStrike ∧
    cand.spreadWidth ≤ (max_spread : ℚ) ∧
    min_dte ≤ cand.dte ∧ cand.dte ≤ max_dte ∧
    0 < cand.lowerBid ∧ 0 < cand.lowerAsk ∧
    0 < cand.higherBid ∧ 0 < cand.higherAsk ∧
    cand.lowerAsk < cand.higherBid := by
  unfold icPutSpreads at h
  rw [List.mem_flatMap] at h
  obtain ⟨p, hp, h⟩ := h
  obtain ⟨hls, hhs, rest⟩ := icPutCandsPerLower_mem h
  exact ⟨hls ▸ withRest_mem_fst hp, withRest_mem_rest hp _ hhs, rest⟩

theorem icCallSpreads_mem {max_spread min_dte max_dte today : ℤ}
    {F : StrikeFmt} {m : StrikeMap} {valid : List ℚ} {cand : SpreadCand}
    (h : cand ∈ icCallSpreads max_spread min_dte max_dte today F m valid) :
    cand.lowerStrike ∈ valid ∧ cand.higherStrike ∈ valid ∧
    cand.spreadWidth = cand.higherStrike - cand.lowerStrike ∧
    cand.spreadWidth ≤ (max_spread : ℚ) ∧
    min_dte ≤ cand.dte ∧ cand.dte ≤ max_dte ∧
    0 < cand.lowerBid ∧ 0 < cand.lowerAsk ∧
    0 < cand.higherBid ∧ 0 < cand.higherAsk ∧
    cand.higherAsk < cand.lowerBid := by
  unfold icCallSpreads at h
  rw [List.mem_flatMap] at h
  obtain ⟨p, hp, h⟩ := h
  obtain ⟨hls, hhs, rest⟩ := icCallCandsPerLower_mem h
  exact ⟨hls ▸ withRest_mem_fst hp, withRest_mem_rest hp _ hhs, rest⟩

theorem icCombineOf_some {symbol : String} {price : ℚ} {ps cs : SpreadCand}
    {rec : ICRecord} (h : icCombineOf symbol price ps cs = some rec) :
    ps.spreadWidth = cs.spreadWidth ∧ ps.dte = cs.dte ∧
    rec.spreadWidth = ps.spreadWidth ∧ rec.dte = ps.dte ∧
    rec.putLowerStrike = ps.lowerStrike ∧
    rec.putHigherStrike = ps.higherStrike ∧
    rec.callLowerStrike = cs.lowerStrike ∧
    rec.callHigherStrike = cs.higherStrike ∧
    rec.putLowerBid = ps.lowerBid ∧ rec.putLowerAsk = ps.lowerAsk ∧
    rec.putHigherBid = ps.higherBid ∧ rec.putHigherAsk = ps.higherAsk ∧
    rec.callLowerBid = cs.lowerBid ∧ rec.callLowerAsk = cs.lowerAsk ∧
    rec.callHigherBid = cs.higherBid ∧ rec.callHigherAsk = cs.higherAsk ∧
    rec.putCredit =
      ((ps.higherBid + ps.higherAsk) / 2 - (ps.lowerBid + ps.lowerAsk) / 2) * 100 ∧
    rec.callCredit =
      ((cs.lowerBid + cs.lowerAsk) / 2 - (cs.higherBid + cs.higherAsk) / 2) * 100 ∧
    rec.totalCredit = rec.putCredit + rec.callCredit ∧
    rec.maxRisk = rec.spreadWidth * 100 - rec.totalCredit ∧
    0 < rec.totalCredit ∧ 0 < rec.maxRisk ∧
    rec.annPctGain = (if 0 < rec.dte then (rec.pctGain * 365) / (rec.dte : ℚ) else 0) ∧
    rec.symbol = symbol ∧ rec.price = price := by
  unfold icCombineOf at h
  split at h
  · exact absurd h (by simp)
  split at h
  · exact absurd h (by simp)
  split at h
  · exact absurd h (by simp)
  split at h
  · exact absurd h (by simp)
  rw [Option.some.injEq] at h
  subst h
  push_neg at *
  refine ⟨by assumption, by assumption, rfl, rfl, rfl, rfl, rfl, rfl, rfl,
    rfl, rfl, rfl, rfl, rfl, rfl, rfl, rfl, rfl, rfl, rfl,
    by dsimp only; linarith, by dsimp only; linarith, rfl, rfl, rfl⟩

theorem fetch_stock_iron_condor_records_mem {symbol : String} {price : ℚ}
    {min_strike_pct max_strike_pct min_dte max_dte max_spread today : ℤ}
    {F : StrikeFmt} {put_map call_map : ExpMap} {rec : ICRecord}
    (h : rec ∈ fetch_stock_iron_condor_records symbol price min_strike_pct
      max_strike_pct min_dte max_dte max_spread today F put_map call_map) :
    ∃ exp_key put_strike_map call_strike_map ps cs,
      (exp_key, put_strike_map) ∈ put_map ∧
      expLookup call_map exp_key = some call_strike_map ∧
      ps ∈ icPutSpreads max_spread min_dte max_dte today F put_strike_map
        (icValidPutStrikes price min_strike_pct max_strike_pct put_strike_map) ∧
      cs ∈ icCallSpreads max_spread min_dte max_dte today F call_strike_map
        (icValidCallStrikes price min_strike_pct max_strike_pct call_strike_map) ∧
      icCombineOf symbol price ps cs = some rec := by
  unfold fetch_stock_iron_condor_records at h
  rw [List.mem_flatMap] at h
  obtain ⟨pm, hpm, h⟩ := h
  split at h
  · simp at h
  · rename_i call_strike_map hlook
    dsimp only at h
    split at h
    · simp at h
    · rw [List.mem_flatMap] at h
      obtain ⟨ps, hps, h⟩ := h
      rw [List.mem_filterMap] at h
      obtain ⟨cs, hcs, heq⟩ := h
      exact ⟨pm.1, pm.2, call_strike_map, ps, cs, by simpa using hpm, hlook,
        hps, hcs, heq⟩

/-- Membership in the put strike window gives the inclusive bounds. -/
theorem icValidPutStrikes_bounds {price : ℚ} {min_strike_pct max_strike_pct : ℤ}
    {m : StrikeMap} {s : ℚ}
    (h : s ∈ icValidPutStrikes price min_strike_pct max_strike_pct m) :
    price * ((min_strike_pct : ℚ) / 100) ≤ s ∧
    s ≤ price * ((max_strike_pct : ℚ) / 100) := by
  unfold icValidPutStrikes at h
  rw [List.mem_filter, Bool.and_eq_true, decide_eq_true_iff, decide_eq_true_iff] at h
  exact h.2

/-- Membership in the mirrored call strike window gives the inclusive
bounds. -/
theorem icValidCallStrikes_bounds {price : ℚ} {min_strike_pct max_strike_pct : ℤ}
    {m : StrikeMap} {s : ℚ}
    (h : s ∈ icValidCallStrikes price min_strike_pct max_strike_pct m) :
    price * (2 - (max_strike_pct : ℚ) / 100) ≤ s ∧
    s ≤ price * (2 - (min_strike_pct : ℚ) / 100) := by
  unfold icValidCallStrikes at h
  rw [List.mem_filter, Bool.and_eq_true, decide_eq_true_iff, decide_eq_true_iff] at h
  exact h.2

/-! Lemmas about the sort comparators and the data loops. -/

theorem pcLe_trans (a b c : PCRecord) (hab : pcLe a b = true)
    (hbc : pcLe b c = true) : pcLe a c = true := by
  simp only [pcLe, decide_eq_true_iff] at *
  exact le_trans hbc hab

theorem pcLe_total (a b : PCRecord) : (pcLe a b || pcLe b a) = true := by
  simp only [pcLe, Bool.or_eq_true, decide_eq_true_iff]
  exact le_total b.annPctGain a.annPctGain

theorem icLe_trans (a b c : ICRecord) (hab : icLe a b = true)
    (hbc : icLe b c = true) : icLe a c = true := by
  simp only [icLe, decide_eq_true_iff] at *
  exact le_trans hbc hab

theorem icLe_total (a b : ICRecord) : (icLe a b || icLe b a) = true := by
  simp only [icLe, Bool.or_eq_true, decide_eq_true_iff]
  exact le_total b.annPctGain a.annPctGain

theorem batchLe_trans (a b c : BatchRecord) (hab : batchLe a b = true)
    (hbc : batchLe b c = true) : batchLe a c = true := by
  simp only [batchLe, decide_eq_true_iff] at *
  exact le_trans hbc hab

theorem batchLe_total (a b : BatchRecord) : (batchLe a b || batchLe b a) = true := by
  simp only [batchLe, Bool.or_eq_true, decide_eq_true_iff]
  exact le_total b.record.annPctGain a.record.annPctGain

theorem fetch_stock_call_spread_ok {env : Env} {sym : String}
    {mp Mp md MD ms today : ℤ} {F : StrikeFmt} {recs : List CSRecord} {n : Nat}
    (h : fetch_stock_call_spread env sym mp Mp md MD ms today F = .ok (recs, n)) :
    ∃ d, env sym = .ok d ∧
      recs = fetch_stock_call_spread_records sym d.price mp Mp md MD ms today F
        d.callMap ∧ n = 2 := by
  unfold fetch_stock_call_spread at h
  split at h
  · exact absurd h (by simp)
  · rename_i d hd
    split at h
    · exact absurd h (by simp)
    · rw [Except.ok.injEq, Prod.mk.injEq] at h
      exact ⟨d, hd, h.1.symm, h.2.symm⟩

theorem fetch_stock_put_spread_ok {env : Env} {sym : String}
    {mp Mp md MD ms today : ℤ} {F : StrikeFmt} {recs : List PSRecord} {n : Nat}
    (h : fetch_stock_put_spread env sym mp Mp md MD ms today F = .ok (recs, n)) :
    ∃ d, env sym = .ok d ∧
      recs = fetch_stock_put_spread_records sym d.price mp Mp md MD ms today F
        d.putMap ∧ n = 2 := by
  unfold fetch_stock_put_spread at h
  split at h
  · exact absurd h (by simp)
  · rename_i d hd
    split at h
    · exact absurd h (by simp)
    · rw [Except.ok.injEq, Prod.mk.injEq] at h
      exact ⟨d, hd, h.1.symm, h.2.symm⟩

theorem fetch_put_call_spread_loop_mem {env : Env}
    {mp Mp md MD ms today : ℤ} {F : StrikeFmt} {syms : List String}
    {recs : List PCRecord} {n : Nat} {pc : PCRecord}
    (h : fetch_put_call_spread_loop env mp Mp md MD ms today F syms =
      .ok (recs, n)) (hpc : pc ∈ recs) :
    ∃ sym d, env sym = .ok d ∧ sym ∈ syms ∧
      ((∃ r, pc = PCRecord.callSpread r ∧
        r ∈ fetch_stock_call_spread_records sym d.price mp Mp md MD ms today F
          d.callMap) ∨
       (∃ r, pc = PCRecord.putSpread r ∧
        r ∈ fetch_stock_put_spread_records sym d.price mp Mp md MD ms today F
          d.putMap)) := by
  induction syms generalizing recs n with
  | nil =>
    rw [fetch_put_call_spread_loop, Except.ok.injEq, Prod.mk.injEq] at h
    rw [← h.1] at hpc
    simp at hpc
  | cons sym rest ih =>
    rw [fetch_put_call_spread_loop] at h
    cases hcs : fetch_stock_call_spread env sym mp Mp md MD ms today F with
    | error e =>
      rw [hcs] at h
      simp [Except.instMonad, Bind.bind, Except.bind, Functor.map, Except.map] at h
    | ok v =>
      cases hps : fetch_stock_put_spread env sym mp Mp md MD ms today F with
      | error e =>
        rw [hcs, hps] at h
        simp [Except.instMonad, Bind.bind, Except.bind, Functor.map, Except.map] at h
      | ok w =>
        cases hrest : fetch_put_call_spread_loop env mp Mp md MD ms today F rest with
        | error e =>
          rw [hcs, hps, hrest] at h
          simp [Except.instMonad, Bind.bind, Except.bind, Functor.map, Except.map] at h
        | ok u =>
          rw [hcs, hps, hrest] at h
          simp only [Except.instMonad, Bind.bind, Except.bind, Functor.map,
            Except.map, Pure.pure, Except.pure, Except.ok.injEq,
            Prod.mk.injEq] at h
          rw [← h.1] at hpc
          simp only [List.mem_append] at hpc
          rcases hpc with (hpc | hpc) | hpc
          · rw [List.mem_map] at hpc
            obtain ⟨r, hr, hrec⟩ := hpc
            obtain ⟨d, hd, hrecs, _⟩ := fetch_stock_call_spread_ok
              (by rw [hcs] : fetch_stock_call_spread env sym mp Mp md MD ms
                today F = .ok (v.1, v.2))
            exact ⟨sym, d, hd, List.mem_cons_self _ _,
              Or.inl ⟨r, hrec.symm, hrecs ▸ hr⟩⟩
          · rw [List.mem_map] at hpc
            obtain ⟨r, hr, hrec⟩ := hpc
            obtain ⟨d, hd, hrecs, _⟩ := fetch_stock_put_spread_ok
              (by rw [hps] : fetch_stock_put_spread env sym mp Mp md MD ms
                today F = .ok (w.1, w.2))
            exact ⟨sym, d, hd, List.mem_cons_self _ _,
              Or.inr ⟨r, hrec.symm, hrecs ▸ hr⟩⟩
          · obtain ⟨sym2, d, hd, hmem, hres⟩ := ih
              (by rw [hrest] : fetch_put_call_spread_loop env mp Mp md MD ms
                today F rest = .ok (u.1, u.2)) hpc
            exact ⟨sym2, d, hd, List.mem_cons_of_mem _ hmem, hres⟩

theorem fetch_put_call_spread_data_ok {env : Env}
    {mp Mp md MD ms today : ℤ} {F : StrikeFmt} {symbols : List String}
    {recs : List PCRecord} {n : Nat}
    (h : fetch_put_call_spread_data env mp Mp md MD ms today F symbols =
      .ok (recs, n)) :
    ∃ base, fetch_put_call_spread_loop env mp Mp md MD ms today F symbols =
      .ok (base, n) ∧ recs = base.mergeSort pcLe := by
  unfold fetch_put_call_spread_data at h
  cases hl : fetch_put_call_spread_loop env mp Mp md MD ms today F symbols with
  | error e =>
    rw [hl] at h
    simp [Except.instMonad, Bind.bind, Except.bind, Functor.map, Except.map,
      Pure.pure, Except.pure] at h
  | ok u =>
    rw [hl] at h
    simp only [Except.instMonad, Bind.bind, Except.bind, Functor.map,
      Except.map, Pure.pure, Except.pure, Except.ok.injEq, Prod.mk.injEq] at h
    obtain ⟨h1, h2⟩ := h
    subst h2
    exact ⟨u.1, rfl, h1.symm⟩

theorem fetch_iron_condor_data_ok {env : Env}
    {mp Mp md MD ms today : ℤ} {F : StrikeFmt} {symbols : List String}
    {recs : List ICRecord} {n : Nat}
    (h : fetch_iron_condor_data env mp Mp md MD ms today F symbols =
      .ok (recs, n)) :
    ∃ base, fetch_iron_condor_loop env mp Mp md MD ms today F symbols =
      .ok (base, n) ∧ recs = base.mergeSort icLe := by
  unfold fetch_iron_condor_data at h
  cases hl : fetch_iron_condor_loop env mp Mp md MD ms today F symbols with
  | error e =>
    rw [hl] at h
    simp [Except.instMonad, Bind.bind, Except.bind, Functor.map, Except.map,
      Pure.pure, Except.pure] at h
  | ok u =>
    rw [hl] at h
    simp only [Except.instMonad, Bind.bind, Except.bind, Functor.map,
      Except.map, Pure.pure, Except.pure, Except.ok.injEq, Prod.mk.injEq] at h
    obtain ⟨h1, h2⟩ := h
    subst h2
    exact ⟨u.1, rfl, h1.symm⟩

/-! Lemmas about the batch route's per-stock loop. -/

theorem batch_loop_errors (env : Env) (today : ℤ) (F : StrikeFmt)
    (dp : DefaultParams) (l : List StockCfg) :
    (batch_loop env today F dp l).2.2.2.2 =
      l.filterMap (fun s => match batchFetchStock env today F dp s with
        | .error e => some (s.symbol, e)
        | .ok _ => none) := by
  induction l with
  | nil => rfl
  | cons s rest ih =>
    cases hf : batchFetchStock env today F dp s with
    | ok v =>
      obtain ⟨rs, n⟩ := v
      unfold batch_loop
      rw [hf, List.filterMap_cons, hf]
      simpa using ih
    | error e =>
      unfold batch_loop
      rw [hf, List.filterMap_cons, hf]
      simpa using ih

theorem batch_loop_calls (env : Env) (today : ℤ) (F : StrikeFmt)
    (dp : DefaultParams) (l : List StockCfg) :
    (batch_loop env today F dp l).2.1 =
      (l.map (fun s => match batchFetchStock env today F dp s with
        | .ok v => v.2
        | .error _ => 0)).sum := by
  induction l with
  | nil => rfl
  | cons s rest ih =>
    cases hf : batchFetchStock env today F dp s with
    | ok v =>
      obtain ⟨rs, n⟩ := v
      unfold batch_loop
      rw [hf, List.map_cons, List.sum_cons, hf]
      simpa using ih
    | error e =>
      unfold batch_loop
      rw [hf, List.map_cons, List.sum_cons, hf]
      simpa using ih

theorem batch_loop_records (env : Env) (today : ℤ) (F : StrikeFmt)
    (dp : DefaultParams) (l : List StockCfg) :
    ∀ s ∈ l, ∀ rs n, batchFetchStock env today F dp s = .ok (rs, n) →
      ∀ r ∈ rs, BatchRecord.mk r (effNotes s) ∈ (batch_loop env today F dp l).1 := by
  induction l with
  | nil => simp
  | cons s0 rest ih =>
    intro s hs rs n hf r hr
    rcases List.mem_cons.mp hs with h0 | h0
    · subst h0
      unfold batch_loop
      rw [hf]
      exact List.mem_append_left _ (List.mem_map_of_mem _ hr)
    · have htail := ih s h0 rs n hf r hr
      cases hf0 : batchFetchStock env today F dp s0 with
      | ok v =>
        obtain ⟨rs0, n0⟩ := v
        unfold batch_loop
        rw [hf0]
        exact List.mem_append_right _ htail
      | error e =>
        unfold batch_loop
        rw [hf0]
        exact htail

/-! Lemmas about payload validation. -/

theorem parse_payload_ok_maxSpread {d : RawPayload} {p : ParsedPayload}
    (h : parse_payload d = .ok p) :
    ∀ ms : ℤ, d.maxSpread = some (some ms) →
      p.max_spread = some ms ∧ 1 ≤ ms ∧ ms ≤ 30 := by
  intro ms hms
  unfold parse_payload at h
  split at h
  · split at h
    · exact absurd h (by simp)
    · split at h
      · split at h
        · rename_i hnone
          rw [hms] at hnone
          exact absurd hnone (by simp)
        · rename_i hmsint
          rw [hms] at hmsint
          exact absurd hmsint (by simp)
        · rename_i ms2 hms2
          rw [hms] at hms2
          rw [Option.some.injEq, Option.some.injEq] at hms2
          subst hms2
          split at h
          · exact absurd h (by simp)
          · rename_i hrange
            push_neg at hrange
            rw [Except.ok.injEq] at h
            subst h
            exact ⟨rfl, hrange.1, hrange.2⟩
      · exact absurd h (by simp)
  · exact absurd h (by simp)

/-! Derived facts about emitted iron-condor records, shared by several
theorems below. -/

theorem iron_condor_record_windows {symbol : String} {price : ℚ}
    {mp Mp md MD ms today : ℤ} {F : StrikeFmt} {put_map call_map : ExpMap}
    {rec : ICRecord}
    (h : rec ∈ fetch_stock_iron_condor_records symbol price mp Mp md MD ms
      today F put_map call_map) :
    price * ((mp : ℚ) / 100) ≤ rec.putLowerStrike ∧
    rec.putLowerStrike ≤ price * ((Mp : ℚ) / 100) ∧
    price * ((mp : ℚ) / 100) ≤ rec.putHigherStrike ∧
    rec.putHigherStrike ≤ price * ((Mp : ℚ) / 100) ∧
    price * (2 - (Mp : ℚ) / 100) ≤ rec.callLowerStrike ∧
    rec.callLowerStrike ≤ price * (2 - (mp : ℚ) / 100) ∧
    price * (2 - (Mp : ℚ) / 100) ≤ rec.callHigherStrike ∧
    rec.callHigherStrike ≤ price * (2 - (mp : ℚ) / 100) := by
  obtain ⟨k, psm, csm, ps, cs, hk, hcsm, hps, hcs, hcomb⟩ :=
    fetch_stock_iron_condor_records_mem h
  obtain ⟨hpl, hph, _⟩ := icPutSpreads_mem hps
  obtain ⟨hcl, hch, _⟩ := icCallSpreads_mem hcs
  obtain ⟨_, _, _, _, e1, e2, e3, e4, _⟩ := icCombineOf_some hcomb
  obtain ⟨b1, b2⟩ := icValidPutStrikes_bounds hpl
  obtain ⟨b3, b4⟩ := icValidPutStrikes_bounds hph
  obtain ⟨b5, b6⟩ := icValidCallStrikes_bounds hcl
  obtain ⟨b7, b8⟩ := icValidCallStrikes_bounds hch
  rw [e1, e2, e3, e4]
  exact ⟨b1, b2, b3, b4, b5, b6, b7, b8⟩

theorem iron_condor_record_leg_facts {symbol : String} {price : ℚ}
    {mp Mp md MD ms today : ℤ} {F : StrikeFmt} {put_map call_map : ExpMap}
    {rec : ICRecord}
    (h : rec ∈ fetch_stock_iron_condor_records symbol price mp Mp md MD ms
      today F put_map call_map) :
    0 < rec.putLowerBid ∧ 0 < rec.putLowerAsk ∧
    0 < rec.putHigherBid ∧ 0 < rec.putHigherAsk ∧
    0 < rec.callLowerBid ∧ 0 < rec.callLowerAsk ∧
    0 < rec.callHigherBid ∧ 0 < rec.callHigherAsk ∧
    rec.putLowerAsk < rec.putHigherBid ∧
    rec.callHigherAsk < rec.callLowerBid ∧
    rec.putCredit = ((rec.putHigherBid + rec.putHigherAsk) / 2 -
      (rec.putLowerBid + rec.putLowerAsk) / 2) * 100 ∧
    rec.callCredit = ((rec.callLowerBid + rec.callLowerAsk) / 2 -
      (rec.callHigherBid + rec.callHigherAsk) / 2) * 100 ∧
    rec.totalCredit = rec.putCredit + rec.callCredit ∧
    rec.maxRisk = rec.spreadWidth * 100 - rec.totalCredit ∧
    0 < rec.totalCredit ∧ 0 < rec.maxRisk ∧
    rec.annPctGain = (if 0 < rec.dte then (rec.pctGain * 365) / (rec.dte : ℚ) else 0) ∧
    rec.putHigherStrike - rec.putLowerStrike = rec.spreadWidth ∧
    rec.callHigherStrike - rec.callLowerStrike = rec.spreadWidth := by
  obtain ⟨k, psm, csm, ps, cs, hk, hcsm, hps, hcs, hcomb⟩ :=
    fetch_stock_iron_condor_records_mem h
  obtain ⟨_, _, hpw, _, _, _, hp1, hp2, hp3, hp4, hpadm⟩ := icPutSpreads_mem hps
  obtain ⟨_, _, hcw, _, _, _, hc1, hc2, hc3, hc4, hcadm⟩ := icCallSpreads_mem hcs
  obtain ⟨hweq, hdteq, hwrec, hdrec, e1, e2, e3, e4, q1, q2, q3, q4, q5, q6,
    q7, q8, hputc, hcallc, htot, hrisk, htotpos, hriskpos, hann, _, _⟩ :=
    icCombineOf_some hcomb
  refine ⟨q1 ▸ hp1, q2 ▸ hp2, q3 ▸ hp3, q4 ▸ hp4, q5 ▸ hc1, q6 ▸ hc2,
    q7 ▸ hc3, q8 ▸ hc4, ?_, ?_, ?_, ?_, htot, hrisk, htotpos, hriskpos, hann,
    ?_, ?_⟩
  · rw [q2, q3]; exact hpadm
  · rw [q8, q5]; exact hcadm
  · rw [hputc, q3, q4, q1, q2]
  · rw [hcallc, q5, q6, q7, q8]
  · rw [e1, e2, hwrec, ← hpw]
  · rw [e3, e4, hwrec, hweq, ← hcw]

/-- C8: strike-key resolution probes exactly three string forms in order —
the exact float string, the integer-truncated string, the one-decimal
string — and returns the first form that is a key of the map; when none of
the three forms is a key, the strike is treated as unavailable: the
pairwise-combination loop for that strike contributes no records and the
evaluation returns normally instead of raising. -/
theorem C8_strike_key_resolution (F : StrikeFmt) (m : StrikeMap) (s : ℚ)
    (symbol : String) (price : ℚ) (max_spread min_dte max_dte today : ℤ)
    (lowers : List ℚ) :
    (find_strike_key F m s =
      if hasKey m (F.pyStr s) then some (F.pyStr s)
      else if hasKey m (F.pyStrInt s) then some (F.pyStrInt s)
      else if hasKey m (F.pyFmt1f s) then some (F.pyFmt1f s)
      else none) ∧
    (find_strike_key F m s = none →
      csPerUpper symbol price max_spread min_dte max_dte today F m s lowers
        = []) := by
  constructor
  · unfold find_strike_key
    cases h1 : hasKey m (F.pyStr s) <;> cases h2 : hasKey m (F.pyStrInt s) <;>
      cases h3 : hasKey m (F.pyFmt1f s) <;>
        simp [List.find?, h1, h2, h3]
  · intro h
    unfold csPerUpper
    rw [h]

/-- Witness for C8: on a map with the single key "x", the strike 50 resolves
to none under `intFmt` and the combination loop yields no records. -/
theorem C8_strike_key_resolution_witness :
    (find_strike_key intFmt [⟨"x", 1, []⟩] 50 = none) ∧
    csPerUpper "A" 100 10 1 60 0 intFmt [⟨"x", 1, []⟩] 50 [45] = [] := by
  have hnone : find_strike_key intFmt [⟨"x", 1, []⟩] 50 = none := by
    with_unfolding_all rfl
  exact ⟨hnone,
    (C8_strike_key_resolution intFmt [⟨"x", 1, []⟩] 50 "A" 100 10 1 60 0
      [45]).2 hnone⟩

/-- C5 counterexample: with strikes 50 (mid 0.5) and 51 (mid 2) the put
spread's credit 150 exceeds the width value 100, so `maxRisk = -50 ≤ 0`,
yet the record is emitted (with `pctGain` zeroed): the claimed
`maxRisk > 0` admission filter does not exist in the code. -/
theorem C5_counterexample :
    (fetch_stock_put_spread_records "X" 100 40 60 1 60 5 0 intFmt
        psBadChain).map (fun r => (r.creditReceived, r.maxRisk, r.pctGain)) =
      [(150, -50, 0)] ∧ ((-50 : ℚ) ≤ 0) := by
  constructor
  · with_unfolding_all rfl
  · with_unfolding_all rfl

/-- C5 (amended): every emitted put-credit-spread record has strictly
positive credit `(higherMid - lowerMid) * 100` and
`maxRisk = spreadWidth * 100 - credit`, but `maxRisk > 0` is not required
for emission: when `maxRisk ≤ 0` the record is still emitted with its
`pctGain` forced to 0. -/
theorem C5_put_spread_credit (symbol : String) (price : ℚ)
    (mp Mp md MD ms today : ℤ) (F : StrikeFmt) (put_map : ExpMap)
    (rec : PSRecord)
    (h : rec ∈ fetch_stock_put_spread_records symbol price mp Mp md MD ms
      today F put_map) :
    0 < rec.creditReceived ∧
    rec.maxRisk = rec.spreadWidth * 100 - rec.creditReceived ∧
    (rec.maxRisk ≤ 0 → rec.pctGain = 0) := by
  obtain ⟨_, _, _, _, _, _, _, _, _, _, hcred, _, _, hrisk, _, hpct, _, _, _⟩ :=
    fetch_stock_put_spread_records_mem h
  exact ⟨hcred, hrisk, hpct⟩

/-- Witness for C5 (amended) on the record produced from `psBadChain`. -/
theorem C5_put_spread_credit_witness :
    (psRec0 ∈ fetch_stock_put_spread_records "X" 100 40 60 1 60 5 0 intFmt
      psBadChain) ∧
    (0 < psRec0.creditReceived ∧
      psRec0.maxRisk = psRec0.spreadWidth * 100 - psRec0.creditReceived ∧
      (psRec0.maxRisk ≤ 0 → psRec0.pctGain = 0)) := by
  have hmem : psRec0 ∈ fetch_stock_put_spread_records "X" 100 40 60 1 60 5 0
      intFmt psBadChain := by
    with_unfolding_all exact List.Mem.head _
  exact ⟨hmem,
    C5_put_spread_credit "X" 100 40 60 1 60 5 0 intFmt psBadChain psRec0 hmem⟩

/-- C7 counterexample: at price 100.5 with `minStrikePct = 90` the claimed
lower bound is 90.45, but the covered-call evaluator truncates the bound
with `int(...)` to 90, so the strike 90 — strictly below
`price * minStrikePct / 100` — still produces an emitted record. -/
theorem C7_counterexample :
    (fetch_options_chain_records "X" (201/2) 90 120 1 60 0 ccTruncChain).map
        (fun r => r.strike) = [90] ∧
    ((90 : ℚ) < (201/2) * ((90 : ℚ) / 100)) := by
  constructor
  · with_unfolding_all rfl
  · with_unfolding_all rfl

/-- C7 (amended): the spread evaluators (call spread, put spread, and the
iron condor's put side, with the call side mirrored) filter strikes to the
inclusive float range `[price*minStrikePct/100, price*maxStrikePct/100]`
before enumeration; the covered-call and collar evaluators instead truncate
both bounds with `int(...)` first, so their window is the inclusive integer
range `[int(price*minStrikePct/100), int(price*maxStrikePct/100)]`. -/
theorem C7_strike_window (symbol : String) (price : ℚ)
    (mp Mp md MD ms today : ℤ) (F : StrikeFmt) :
    (∀ (call_map : ExpMap) (rec : CSRecord),
      rec ∈ fetch_stock_call_spread_records symbol price mp Mp md MD ms today
        F call_map →
      price * ((mp : ℚ) / 100) ≤ rec.lowerStrike ∧
      rec.lowerStrike ≤ price * ((Mp : ℚ) / 100) ∧
      price * ((mp : ℚ) / 100) ≤ rec.upperStrike ∧
      rec.upperStrike ≤ price * ((Mp : ℚ) / 100)) ∧
    (∀ (put_map : ExpMap) (rec : PSRecord),
      rec ∈ fetch_stock_put_spread_records symbol price mp Mp md MD ms today
        F put_map →
      price * ((mp : ℚ) / 100) ≤ rec.lowerStrike ∧
      rec.lowerStrike ≤ price * ((Mp : ℚ) / 100) ∧
      price * ((mp : ℚ) / 100) ≤ rec.higherStrike ∧
      rec.higherStrike ≤ price * ((Mp : ℚ) / 100)) ∧
    (∀ (put_map call_map : ExpMap) (rec : ICRecord),
      rec ∈ fetch_stock_iron_condor_records symbol price mp Mp md MD ms today
        F put_map call_map →
      price * ((mp : ℚ) / 100) ≤ rec.putLowerStrike ∧
      rec.putHigherStrike ≤ price * ((Mp : ℚ) / 100) ∧
      price * (2 - (Mp : ℚ) / 100) ≤ rec.callLowerStrike ∧
      rec.callHigherStrike ≤ price * (2 - (mp : ℚ) / 100)) ∧
    (∀ (call_map : ExpMap) (rec : CCRecord),
      rec ∈ fetch_options_chain_records symbol price mp Mp md MD today
        call_map →
      ((pyInt (price * ((mp : ℚ) / 100)) : ℚ)) ≤ rec.strike ∧
      rec.strike ≤ ((pyInt (price * ((Mp : ℚ) / 100)) : ℚ))) ∧
    (∀ (call_map put_map : ExpMap) (rec : CollarRecord),
      rec ∈ fetch_stock_collar_records symbol price mp Mp md MD today
        call_map put_map →
      ((pyInt (price * ((mp : ℚ) / 100)) : ℚ)) ≤ rec.strike ∧
      rec.strike ≤ ((pyInt (price * ((Mp : ℚ) / 100)) : ℚ))) := by
  refine ⟨?_, ?_, ?_, ?_, ?_⟩
  · intro call_map rec h
    obtain ⟨b1, b2, b3, b4, _⟩ := fetch_stock_call_spread_records_mem h
    exact ⟨b1, b2, b3, b4⟩
  · intro put_map rec h
    obtain ⟨b1, b2, b3, b4, _⟩ := fetch_stock_put_spread_records_mem h
    exact ⟨b1, b2, b3, b4⟩
  · intro put_map call_map rec h
    obtain ⟨b1, _, _, b4, b5, _, _, b8⟩ := iron_condor_record_windows h
    exact ⟨b1, b4, b5, b8⟩
  · intro call_map rec h
    obtain ⟨b1, b2, _⟩ := fetch_options_chain_records_mem h
    exact ⟨b1, b2⟩
  · intro call_map put_map rec h
    obtain ⟨b1, b2, _⟩ := fetch_stock_collar_records_mem h
    exact ⟨b1, b2⟩

/-- Witness for C7 (amended): the call-spread record of `csChainA` has its
upper strike exactly at `price * maxStrikePct / 100 = 100`, showing the
boundary is eligible (inclusive filter), and both strikes lie in the
window. -/
theorem C7_strike_window_witness :
    (csRec0 ∈ fetch_stock_call_spread_records "A" 100 50 100 1 60 10 0 intFmt
      csChainA) ∧
    (100 * ((50 : ℚ) / 100) ≤ csRec0.lowerStrike ∧
      csRec0.lowerStrike ≤ 100 * ((100 : ℚ) / 100) ∧
      100 * ((50 : ℚ) / 100) ≤ csRec0.upperStrike ∧
      csRec0.upperStrike ≤ 100 * ((100 : ℚ) / 100)) ∧
    csRec0.upperStrike = 100 * ((100 : ℚ) / 100) := by
  have hmem : csRec0 ∈ fetch_stock_call_spread_records "A" 100 50 100 1 60 10
      0 intFmt csChainA := by
    with_unfolding_all exact List.Mem.head _
  refine ⟨hmem,
    (C7_strike_window "A" 100 50 100 1 60 10 0 intFmt).1 csChainA csRec0 hmem,
    ?_⟩
  with_unfolding_all rfl

/-- C3 counterexample: the covered-call evaluator only rejects nonpositive
bid/ask and never checks `ask < bid`; a contract with bid 3, ask 2 — not
tradable under the claimed invariant — is used as the leg of an emitted
record. -/
theorem C3_counterexample :
    (fetch_options_chain_records "X" 100 100 120 1 60 0 ccBadChain).map
        (fun r => (r.bid, r.ask)) = [(3, 2)] ∧ ((2 : ℚ) < 3) := by
  constructor
  · with_unfolding_all rfl
  · with_unfolding_all rfl

/-- C3 (amended): the collar, call-spread, put-spread and put-call-spread
evaluators exclude a contract from every leg unless
`bid > 0 ∧ ask > 0 ∧ ask ≥ bid`; the covered-call and iron-condor
evaluators enforce only `bid > 0 ∧ ask > 0` and accept legs with
`ask < bid`. -/
theorem C3_tradable_quotes (symbol : String) (price : ℚ)
    (mp Mp md MD ms today : ℤ) (F : StrikeFmt) :
    (∀ (call_map : ExpMap) (rec : CSRecord),
      rec ∈ fetch_stock_call_spread_records symbol price mp Mp md MD ms today
        F call_map →
      0 < rec.lowerBid ∧ rec.lowerBid ≤ rec.lowerAsk ∧
      0 < rec.upperBid ∧ rec.upperBid ≤ rec.upperAsk) ∧
    (∀ (put_map : ExpMap) (rec : PSRecord),
      rec ∈ fetch_stock_put_spread_records symbol price mp Mp md MD ms today
        F put_map →
      0 < rec.lowerBid ∧ rec.lowerBid ≤ rec.lowerAsk ∧
      0 < rec.higherBid ∧ rec.higherBid ≤ rec.higherAsk) ∧
    (∀ (call_map put_map : ExpMap) (rec : CollarRecord),
      rec ∈ fetch_stock_collar_records symbol price mp Mp md MD today
        call_map put_map →
      0 < rec.callBid ∧ 0 < rec.callAsk ∧ rec.callBid ≤ rec.callAsk ∧
      0 < rec.putBid ∧ 0 < rec.putAsk ∧ rec.putBid ≤ rec.putAsk) ∧
    (∀ (call_map : ExpMap) (rec : CCRecord),
      rec ∈ fetch_options_chain_records symbol price mp Mp md MD today
        call_map →
      0 < rec.bid ∧ 0 < rec.ask) ∧
    (∀ (put_map call_map : ExpMap) (rec : ICRecord),
      rec ∈ fetch_stock_iron_condor_records symbol price mp Mp md MD ms today
        F put_map call_map →
      0 < rec.putLowerBid ∧ 0 < rec.putLowerAsk ∧
      0 < rec.putHigherBid ∧ 0 < rec.putHigherAsk ∧
      0 < rec.callLowerBid ∧ 0 < rec.callLowerAsk ∧
      0 < rec.callHigherBid ∧ 0 < rec.callHigherAsk) ∧
    (∀ (env : Env) (symbols : List String) (recs : List PCRecord) (n : Nat),
      fetch_put_call_spread_data env mp Mp md MD ms today F symbols =
        .ok (recs, n) →
      ∀ pc ∈ recs,
        (∀ r, pc = PCRecord.callSpread r →
          0 < r.lowerBid ∧ r.lowerBid ≤ r.lowerAsk ∧
          0 < r.upperBid ∧ r.upperBid ≤ r.upperAsk) ∧
        (∀ r, pc = PCRecord.putSpread r →
          0 < r.lowerBid ∧ r.lowerBid ≤ r.lowerAsk ∧
          0 < r.higherBid ∧ r.higherBid ≤ r.higherAsk)) := by
  refine ⟨?_, ?_, ?_, ?_, ?_, ?_⟩
  · intro call_map rec h
    obtain ⟨_, _, _, _, _, _, u1, u2, l1, l2, _⟩ :=
      fetch_stock_call_spread_records_mem h
    exact ⟨l1, l2, u1, u2⟩
  · intro put_map rec h
    obtain ⟨_, _, _, _, _, _, l1, l2, h1, h2, _⟩ :=
      fetch_stock_put_spread_records_mem h
    exact ⟨l1, l2, h1, h2⟩
  · intro call_map put_map rec h
    obtain ⟨_, _, _, _, c1, c2, c3, p1, p2, p3, _⟩ :=
      fetch_stock_collar_records_mem h
    exact ⟨c1, c2, c3, p1, p2, p3⟩
  · intro call_map rec h
    obtain ⟨_, _, _, _, b1, b2, _⟩ := fetch_options_chain_records_mem h
    exact ⟨b1, b2⟩
  · intro put_map call_map rec h
    obtain ⟨q1, q2, q3, q4, q5, q6, q7, q8, _⟩ :=
      iron_condor_record_leg_facts h
    exact ⟨q1, q2, q3, q4, q5, q6, q7, q8⟩
  · intro env symbols recs n hdata pc hpc
    obtain ⟨base, hbase, hsort⟩ := fetch_put_call_spread_data_ok hdata
    rw [hsort] at hpc
    have hbasemem : pc ∈ base := (List.mergeSort_perm base pcLe).mem_iff.mp hpc
    obtain ⟨sym, d, _, _, hres⟩ := fetch_put_call_spread_loop_mem hbase hbasemem
    constructor
    · intro r hrec
      rcases hres with ⟨r2, hr2, hmem2⟩ | ⟨r2, hr2, _⟩
      · rw [hrec] at hr2
        rw [PCRecord.callSpread.injEq] at hr2
        subst hr2
        obtain ⟨_, _, _, _, _, _, u1, u2, l1, l2, _⟩ :=
          fetch_stock_call_spread_records_mem hmem2
        exact ⟨l1, l2, u1, u2⟩
      · rw [hrec] at hr2
        exact absurd hr2 (by simp)
    · intro r hrec
      rcases hres with ⟨r2, hr2, _⟩ | ⟨r2, hr2, hmem2⟩
      · rw [hrec] at hr2
        exact absurd hr2 (by simp)
      · rw [hrec] at hr2
        rw [PCRecord.putSpread.injEq] at hr2
        subst hr2
        obtain ⟨_, _, _, _, _, _, l1, l2, h1, h2, _⟩ :=
          fetch_stock_put_spread_records_mem hmem2
        exact ⟨l1, l2, h1, h2⟩

/-- Witness for C3 (amended) on the call-spread record of `csChainA`. -/
theorem C3_tradable_quotes_witness :
    (csRec0 ∈ fetch_stock_call_spread_records "A" 100 50 100 1 60 10 0 intFmt
      csChainA) ∧
    (0 < csRec0.lowerBid ∧ csRec0.lowerBid ≤ csRec0.lowerAsk ∧
      0 < csRec0.upperBid ∧ csRec0.upperBid ≤ csRec0.upperAsk) := by
  have hmem : csRec0 ∈ fetch_stock_call_spread_records "A" 100 50 100 1 60 10
      0 intFmt csChainA := by
    with_unfolding_all exact List.Mem.head _
  exact ⟨hmem,
    (C3_tradable_quotes "A" 100 50 100 1 60 10 0 intFmt).1 csChainA csRec0
      hmem⟩

/-- C4 counterexample: the collar annualisation guard is Python `if dte`
(nonzero), not `dte > 0`; with `minDte = -10` an already-expired pair
(dte = -5) is emitted with the nonzero annualised value -12775/12, where
the claim demands 0 for negative dte. -/
theorem C4_counterexample :
    (fetch_stock_collar_records "X" 100 100 120 (-10) 60 0 collarCallMapNeg
        collarPutMapNeg).map (fun r => (r.dte, r.metrics.annReturn)) =
      [(-5, -12775/12)] ∧
    ((-12775/12 : ℚ) ≠ 0) ∧ ((-5 : ℤ) < 0) := by
  refine ⟨by with_unfolding_all rfl, by norm_num, by norm_num⟩

/-- C4 (amended): every emitted spread record (call spread, put spread,
put-call spread, iron condor) carries
`annualized = pctGain * 365 / dte` when `dte > 0` and `0` otherwise; the
covered-call records satisfy the same law because the nonnegativity filters
zero out the expired case; the collar instead uses the guard
`netCost ≠ 0 ∧ dte ≠ 0`, so an emitted collar record with negative dte can
carry a nonzero annualised value. For fixed positive `pct` the annualised
value is strictly decreasing in positive dte. -/
theorem C4_annualization (symbol : String) (price : ℚ)
    (mp Mp md MD ms today : ℤ) (F : StrikeFmt) :
    (∀ (call_map : ExpMap) (rec : CSRecord),
      rec ∈ fetch_stock_call_spread_records symbol price mp Mp md MD ms today
        F call_map →
      rec.annPctGain =
        (if 0 < rec.dte then (rec.pctGain * 365) / (rec.dte : ℚ) else 0)) ∧
    (∀ (put_map : ExpMap) (rec : PSRecord),
      rec ∈ fetch_stock_put_spread_records symbol price mp Mp md MD ms today
        F put_map →
      rec.annPctGain =
        (if 0 < rec.dte then (rec.pctGain * 365) / (rec.dte : ℚ) else 0)) ∧
    (∀ (put_map call_map : ExpMap) (rec : ICRecord),
      rec ∈ fetch_stock_iron_condor_records symbol price mp Mp md MD ms today
        F put_map call_map →
      rec.annPctGain =
        (if 0 < rec.dte then (rec.pctGain * 365) / (rec.dte : ℚ) else 0)) ∧
    (∀ (call_map : ExpMap) (rec : CCRecord),
      rec ∈ fetch_options_chain_records symbol price mp Mp md MD today
        call_map →
      rec.metrics.annPctCall =
        (if 0 < rec.dte then (rec.metrics.pctCall * 365) / (rec.dte : ℚ)
         else 0)) ∧
    (∀ (call_map put_map : ExpMap) (rec : CollarRecord),
      rec ∈ fetch_stock_collar_records symbol price mp Mp md MD today
        call_map put_map →
      rec.metrics.annReturn =
        (if rec.metrics.netCost ≠ 0 ∧ rec.dte ≠ 0 then
          (rec.metrics.collar / rec.metrics.netCost) * (365 / (rec.dte : ℚ)) * 100
         else 0)) ∧
    (∀ (env : Env) (symbols : List String) (recs : List PCRecord) (n : Nat),
      fetch_put_call_spread_data env mp Mp md MD ms today F symbols =
        .ok (recs, n) →
      ∀ pc ∈ recs,
        (∀ r, pc = PCRecord.callSpread r →
          r.annPctGain =
            (if 0 < r.dte then (r.pctGain * 365) / (r.dte : ℚ) else 0)) ∧
        (∀ r, pc = PCRecord.putSpread r →
          r.annPctGain =
            (if 0 < r.dte then (r.pctGain * 365) / (r.dte : ℚ) else 0))) ∧
    (∀ (pct : ℚ) (d1 d2 : ℤ), 0 < pct → 0 < d1 → d1 < d2 →
      (pct * 365) / (d2 : ℚ) < (pct * 365) / (d1 : ℚ)) := by
  refine ⟨?_, ?_, ?_, ?_, ?_, ?_, ?_⟩
  · intro call_map rec h
    obtain ⟨_, _, _, _, _, _, _, _, _, _, _, _, _, _, _, _, hann, _, _⟩ :=
      fetch_stock_call_spread_records_mem h
    exact hann
  · intro put_map rec h
    obtain ⟨_, _, _, _, _, _, _, _, _, _, _, _, _, _, _, _, hann, _, _⟩ :=
      fetch_stock_put_spread_records_mem h
    exact hann
  · intro put_map call_map rec h
    obtain ⟨_, _, _, _, _, _, _, _, _, _, _, _, _, _, _, _, hann, _, _⟩ :=
      iron_condor_record_leg_facts h
    exact hann
  · intro call_map rec h
    obtain ⟨_, _, _, _, _, _, heq, hpct, hann, _, _⟩ :=
      fetch_options_chain_records_mem h
    rw [heq] at hpct hann ⊢
    exact annPctCall_eq_of_filters hpct hann
  · intro call_map put_map rec h
    obtain ⟨_, _, _, _, _, _, _, _, _, _, heq, _, _, _⟩ :=
      fetch_stock_collar_records_mem h
    rw [heq]
    rfl
  · intro env symbols recs n hdata pc hpc
    obtain ⟨base, hbase, hsort⟩ := fetch_put_call_spread_data_ok hdata
    rw [hsort] at hpc
    have hbasemem : pc ∈ base := (List.mergeSort_perm base pcLe).mem_iff.mp hpc
    obtain ⟨sym, d, _, _, hres⟩ := fetch_put_call_spread_loop_mem hbase hbasemem
    constructor
    · intro r hrec
      rcases hres with ⟨r2, hr2, hmem2⟩ | ⟨r2, hr2, _⟩
      · rw [hrec] at hr2
        rw [PCRecord.callSpread.injEq] at hr2
        subst hr2
        obtain ⟨_, _, _, _, _, _, _, _, _, _, _, _, _, _, _, _, hann, _, _⟩ :=
          fetch_stock_call_spread_records_mem hmem2
        exact hann
      · rw [hrec] at hr2
        exact absurd hr2 (by simp)
    · intro r hrec
      rcases hres with ⟨r2, hr2, _⟩ | ⟨r2, hr2, hmem2⟩
      · rw [hrec] at hr2
        exact absurd hr2 (by simp)
      · rw [hrec] at hr2
        rw [PCRecord.putSpread.injEq] at hr2
        subst hr2
        obtain ⟨_, _, _, _, _, _, _, _, _, _, _, _, _, _, _, _, hann, _, _⟩ :=
          fetch_stock_put_spread_records_mem hmem2
        exact hann
  · intro pct d1 d2 hpct hd1 hd12
    have hq1 : (0 : ℚ) < (d1 : ℚ) := by exact_mod_cast hd1
    have hq12 : (d1 : ℚ) < (d2 : ℚ) := by exact_mod_cast hd12
    exact div_lt_div_of_pos_left (by positivity) hq1 hq12

/-- Witness for C4 (amended) on the call-spread record of `csChainA`
(dte 30, pctGain 25, annPctGain 25 * 365 / 30). -/
theorem C4_annualization_witness :
    (csRec0 ∈ fetch_stock_call_spread_records "A" 100 50 100 1 60 10 0 intFmt
      csChainA) ∧
    csRec0.annPctGain =
      (if 0 < csRec0.dte then (csRec0.pctGain * 365) / (csRec0.dte : ℚ)
       else 0) := by
  have hmem : csRec0 ∈ fetch_stock_call_spread_records "A" 100 50 100 1 60 10
      0 intFmt csChainA := by
    with_unfolding_all exact List.Mem.head _
  exact ⟨hmem,
    (C4_annualization "A" 100 50 100 1 60 10 0 intFmt).1 csChainA csRec0 hmem⟩

/-- C9: every emitted iron-condor record draws its put strikes from the
inclusive window `[price*minPct/100, price*maxPct/100]` and its call
strikes from the mirrored window
`[price*(2-maxPct/100), price*(2-minPct/100)]`; the paired put and call
spreads share one spread width (and come from one expiration entry with
equal dte); and the record passes both `totalCredit > 0` and
`maxRisk > 0`. -/
theorem C9_iron_condor_pairing (symbol : String) (price : ℚ)
    (mp Mp md MD ms today : ℤ) (F : StrikeFmt) (put_map call_map : ExpMap)
    (rec : ICRecord)
    (h : rec ∈ fetch_stock_iron_condor_records symbol price mp Mp md MD ms
      today F put_map call_map) :
    (price * ((mp : ℚ) / 100) ≤ rec.putLowerStrike ∧
      rec.putLowerStrike ≤ price * ((Mp : ℚ) / 100) ∧
      price * ((mp : ℚ) / 100) ≤ rec.putHigherStrike ∧
      rec.putHigherStrike ≤ price * ((Mp : ℚ) / 100)) ∧
    (price * (2 - (Mp : ℚ) / 100) ≤ rec.callLowerStrike ∧
      rec.callLowerStrike ≤ price * (2 - (mp : ℚ) / 100) ∧
      price * (2 - (Mp : ℚ) / 100) ≤ rec.callHigherStrike ∧
      rec.callHigherStrike ≤ price * (2 - (mp : ℚ) / 100)) ∧
    rec.putHigherStrike - rec.putLowerStrike = rec.spreadWidth ∧
    rec.callHigherStrike - rec.callLowerStrike = rec.spreadWidth ∧
    (∃ exp_key put_strike_map call_strike_map ps cs,
      (exp_key, put_strike_map) ∈ put_map ∧
      expLookup call_map exp_key = some call_strike_map ∧
      ps ∈ icPutSpreads ms md MD today F put_strike_map
        (icValidPutStrikes price mp Mp put_strike_map) ∧
      cs ∈ icCallSpreads ms md MD today F call_strike_map
        (icValidCallStrikes price mp Mp call_strike_map) ∧
      ps.spreadWidth = cs.spreadWidth ∧ ps.dte = cs.dte ∧
      icCombineOf symbol price ps cs = some rec) ∧
    rec.totalCredit = rec.putCredit + rec.callCredit ∧
    0 < rec.totalCredit ∧ 0 < rec.maxRisk ∧
    rec.maxRisk = rec.spreadWidth * 100 - rec.totalCredit := by
  obtain ⟨w1, w2, w3, w4, w5, w6, w7, w8⟩ := iron_condor_record_windows h
  obtain ⟨_, _, _, _, _, _, _, _, _, _, _, _, htot, hrisk, htotpos, hriskpos,
    _, hwp, hwc⟩ := iron_condor_record_leg_facts h
  obtain ⟨k, psm, csm, ps, cs, hk, hcsm, hps, hcs, hcomb⟩ :=
    fetch_stock_iron_condor_records_mem h
  obtain ⟨hweq, hdteq, _⟩ := icCombineOf_some hcomb
  exact ⟨⟨w1, w2, w3, w4⟩, ⟨w5, w6, w7, w8⟩, hwp, hwc,
    ⟨k, psm, csm, ps, cs, hk, hcsm, hps, hcs, hweq, hdteq, hcomb⟩,
    htot, htotpos, hriskpos, hrisk⟩

/-- Witness for C9 on the iron-condor record of the example chains. -/
theorem C9_iron_condor_pairing_witness :
    (icRec0 ∈ fetch_stock_iron_condor_records "X" 100 80 90 1 60 5 0 intFmt
      icChainPut icChainCall) ∧
    (icRec0.putHigherStrike - icRec0.putLowerStrike = icRec0.spreadWidth ∧
      icRec0.callHigherStrike - icRec0.callLowerStrike = icRec0.spreadWidth ∧
      0 < icRec0.totalCredit ∧ 0 < icRec0.maxRisk) := by
  have hmem : icRec0 ∈ fetch_stock_iron_condor_records "X" 100 80 90 1 60 5 0
      intFmt icChainPut icChainCall := by
    with_unfolding_all exact List.Mem.head _
  have hc := C9_iron_condor_pairing "X" 100 80 90 1 60 5 0 intFmt icChainPut
    icChainCall icRec0 hmem
  exact ⟨hmem, hc.2.2.1, hc.2.2.2.1, hc.2.2.2.2.2.2.1, hc.2.2.2.2.2.2.2.1⟩

/-- C10 (implicit): in every emitted iron-condor record whose four legs
each satisfy `ask ≥ bid`, the putCredit and the callCredit are each
individually strictly positive, because a put spread is admitted only when
the short (higher) put's bid strictly exceeds the long (lower) put's ask,
and a call spread only when the short (lower) call's bid strictly exceeds
the long (higher) call's ask. -/
theorem C10_iron_condor_leg_credits (symbol : String) (price : ℚ)
    (mp Mp md MD ms today : ℤ) (F : StrikeFmt) (put_map call_map : ExpMap)
    (rec : ICRecord)
    (h : rec ∈ fetch_stock_iron_condor_records symbol price mp Mp md MD ms
      today F put_map call_map)
    (h1 : rec.putLowerBid ≤ rec.putLowerAsk)
    (h2 : rec.putHigherBid ≤ rec.putHigherAsk)
    (h3 : rec.callLowerBid ≤ rec.callLowerAsk)
    (h4 : rec.callHigherBid ≤ rec.callHigherAsk) :
    0 < rec.putCredit ∧ 0 < rec.callCredit := by
  obtain ⟨_, _, _, _, _, _, _, _, hpadm, hcadm, hputc, hcallc, _⟩ :=
    iron_condor_record_leg_facts h
  constructor
  · rw [hputc]; linarith
  · rw [hcallc]; linarith

/-- Witness for C10 on the iron-condor record of the example chains. -/
theorem C10_iron_condor_leg_credits_witness :
    (icRec0 ∈ fetch_stock_iron_condor_records "X" 100 80 90 1 60 5 0 intFmt
      icChainPut icChainCall) ∧
    icRec0.putLowerBid ≤ icRec0.putLowerAsk ∧
    icRec0.putHigherBid ≤ icRec0.putHigherAsk ∧
    icRec0.callLowerBid ≤ icRec0.callLowerAsk ∧
    icRec0.callHigherBid ≤ icRec0.callHigherAsk ∧
    (0 < icRec0.putCredit ∧ 0 < icRec0.callCredit) := by
  have hmem : icRec0 ∈ fetch_stock_iron_condor_records "X" 100 80 90 1 60 5 0
      intFmt icChainPut icChainCall := by
    with_unfolding_all exact List.Mem.head _
  have e1 : icRec0.putLowerBid ≤ icRec0.putLowerAsk := by
    with_unfolding_all rfl
  have e2 : icRec0.putHigherBid ≤ icRec0.putHigherAsk := by
    with_unfolding_all rfl
  have e3 : icRec0.callLowerBid ≤ icRec0.callLowerAsk := by
    with_unfolding_all rfl
  have e4 : icRec0.callHigherBid ≤ icRec0.callHigherAsk := by
    with_unfolding_all rfl
  exact ⟨hmem, e1, e2, e3, e4,
    C10_iron_condor_leg_credits "X" 100 80 90 1 60 5 0 intFmt icChainPut
      icChainCall icRec0 hmem e1 e2 e3 e4⟩

/-- C2 counterexample: the covered-call fetch applies no sort at all — with
symbol "A" fetched before "B", the aggregated output lists the gain 365/7
before the larger gain 21900/49, so the returned sequence is not sorted
descending by the annualized-gain field. -/
theorem C2_counterexample :
    (fetch_options_data envC2 100 120 1 60 0 ["A", "B"]).map
        (fun p => (p.1.map (fun rec => rec.metrics.annPctCall), p.2)) =
      .ok ([365/7, 21900/49], 4) ∧ ((365/7 : ℚ) < 21900/49) := by
  constructor
  · with_unfolding_all rfl
  · with_unfolding_all rfl

/-- C2 (amended): only the put-call-spread and iron-condor fetches sort
their aggregated output, and they do it once, after all symbols have been
processed: the returned list is the stable descending `mergeSort` (by the
annualized gain) of the per-symbol insertion-order aggregation, so it is
pairwise sorted and any two records already in descending-or-equal order in
the aggregation (in particular ties) keep their relative order. The other
strategies (covered call, collar, call spread, put spread) return records
in insertion order, unsorted. -/
theorem C2_ranker_sorted (env : Env) (mp Mp md MD ms today : ℤ)
    (F : StrikeFmt) (symbols : List String) :
    (∀ (recs : List PCRecord) (n : Nat),
      fetch_put_call_spread_data env mp Mp md MD ms today F symbols =
        .ok (recs, n) →
      recs.Pairwise (fun a b => b.annPctGain ≤ a.annPctGain) ∧
      (∃ base, fetch_put_call_spread_loop env mp Mp md MD ms today F symbols =
          .ok (base, n) ∧
        recs = base.mergeSort pcLe ∧
        ∀ a b : PCRecord, List.Sublist [a, b] base →
          b.annPctGain ≤ a.annPctGain → List.Sublist [a, b] recs)) ∧
    (∀ (recs : List ICRecord) (n : Nat),
      fetch_iron_condor_data env mp Mp md MD ms today F symbols =
        .ok (recs, n) →
      recs.Pairwise (fun a b => b.annPctGain ≤ a.annPctGain) ∧
      (∃ base, fetch_iron_condor_loop env mp Mp md MD ms today F symbols =
          .ok (base, n) ∧
        recs = base.mergeSort icLe ∧
        ∀ a b : ICRecord, List.Sublist [a, b] base →
          b.annPctGain ≤ a.annPctGain → List.Sublist [a, b] recs)) := by
  constructor
  · intro recs n h
    obtain ⟨base, hbase, hsort⟩ := fetch_put_call_spread_data_ok h
    subst hsort
    refine ⟨?_, base, hbase, rfl, ?_⟩
    · have hp := List.sorted_mergeSort pcLe_trans pcLe_total base
      exact hp.imp (fun hab => by
        simpa [pcLe, decide_eq_true_iff] using hab)
    · intro a b hsub hgain
      refine List.sublist_mergeSort pcLe_trans pcLe_total ?_ hsub
      simp [pcLe, List.pairwise_cons, decide_eq_true_iff, hgain]
  · intro recs n h
    obtain ⟨base, hbase, hsort⟩ := fetch_iron_condor_data_ok h
    subst hsort
    refine ⟨?_, base, hbase, rfl, ?_⟩
    · have hp := List.sorted_mergeSort icLe_trans icLe_total base
      exact hp.imp (fun hab => by
        simpa [icLe, decide_eq_true_iff] using hab)
    · intro a b hsub hgain
      refine List.sublist_mergeSort icLe_trans icLe_total ?_ hsub
      simp [icLe, List.pairwise_cons, decide_eq_true_iff, hgain]

/-- Witness for C2 (amended) on the one-record put-call-spread run. -/
theorem C2_ranker_sorted_witness :
    ([PCRecord.callSpread csRec0].Pairwise
      (fun a b : PCRecord => b.annPctGain ≤ a.annPctGain)) ∧
    (∃ base, fetch_put_call_spread_loop envA 50 100 1 60 10 0 intFmt ["A"] =
        .ok (base, 4) ∧
      [PCRecord.callSpread csRec0] = base.mergeSort pcLe ∧
      ∀ a b : PCRecord, List.Sublist [a, b] base →
        b.annPctGain ≤ a.annPctGain →
        List.Sublist [a, b] [PCRecord.callSpread csRec0]) :=
  (C2_ranker_sorted envA 50 100 1 60 10 0 intFmt ["A"]).1
    [PCRecord.callSpread csRec0] 4 (by with_unfolding_all rfl)

/-- A successful multi-symbol call-spread fetch requires every symbol's
upstream fetch to have succeeded: the per-symbol loop of
`fetch_call_spread_data` re-raises the first failure, so no partial result
can be returned. -/
theorem fetch_call_spread_data_ok_env {env : Env} {mp Mp md MD ms today : ℤ}
    {F : StrikeFmt} {syms : List String} {recs : List CSRecord} {n : Nat}
    (h : fetch_call_spread_data env mp Mp md MD ms today F syms =
      .ok (recs, n)) :
    ∀ sym ∈ syms, ∃ d, env sym = .ok d := by
  induction syms generalizing recs n with
  | nil => simp
  | cons sym rest ih =>
    rw [fetch_call_spread_data] at h
    cases hcs : fetch_stock_call_spread env sym mp Mp md MD ms today F with
    | error e =>
      rw [hcs] at h
      simp [Except.instMonad, Bind.bind, Except.bind, Functor.map,
        Except.map] at h
    | ok v =>
      cases hrest : fetch_call_spread_data env mp Mp md MD ms today F rest with
      | error e =>
        rw [hcs, hrest] at h
        simp [Except.instMonad, Bind.bind, Except.bind, Functor.map,
          Except.map] at h
      | ok u =>
        intro s hs
        rcases List.mem_cons.mp hs with h0 | h0
        · subst h0
          obtain ⟨d, hd, _⟩ := fetch_stock_call_spread_ok
            (show fetch_stock_call_spread env s mp Mp md MD ms today F =
              .ok (v.1, v.2) from by rw [hcs])
          exact ⟨d, hd⟩
        · exact ih (show fetch_call_spread_data env mp Mp md MD ms today F
            rest = .ok (u.1, u.2) from by rw [hrest]) s h0

/-- A successful put-call-spread aggregation loop requires every symbol's
upstream fetch to have succeeded. -/
theorem fetch_put_call_spread_loop_ok_env {env : Env}
    {mp Mp md MD ms today : ℤ} {F : StrikeFmt} {syms : List String}
    {recs : List PCRecord} {n : Nat}
    (h : fetch_put_call_spread_loop env mp Mp md MD ms today F syms =
      .ok (recs, n)) :
    ∀ sym ∈ syms, ∃ d, env sym = .ok d := by
  induction syms generalizing recs n with
  | nil => simp
  | cons sym rest ih =>
    rw [fetch_put_call_spread_loop] at h
    cases hcs : fetch_stock_call_spread env sym mp Mp md MD ms today F with
    | error e =>
      rw [hcs] at h
      simp [Except.instMonad, Bind.bind, Except.bind, Functor.map,
        Except.map] at h
    | ok v =>
      cases hps : fetch_stock_put_spread env sym mp Mp md MD ms today F with
      | error e =>
        rw [hcs, hps] at h
        simp [Except.instMonad, Bind.bind, Except.bind, Functor.map,
          Except.map] at h
      | ok w =>
        cases hrest : fetch_put_call_spread_loop env mp Mp md MD ms today F
            rest with
        | error e =>
          rw [hcs, hps, hrest] at h
          simp [Except.instMonad, Bind.bind, Except.bind, Functor.map,
            Except.map] at h
        | ok u =>
          intro s hs
          rcases List.mem_cons.mp hs with h0 | h0
          · subst h0
            obtain ⟨d, hd, _⟩ := fetch_stock_call_spread_ok
              (show fetch_stock_call_spread env s mp Mp md MD ms today F =
                .ok (v.1, v.2) from by rw [hcs])
            exact ⟨d, hd⟩
          · exact ih (show fetch_put_call_spread_loop env mp Mp md MD ms today
              F rest = .ok (u.1, u.2) from by rw [hrest]) s h0

/-- A successful multi-symbol put-call-spread fetch requires every symbol's
upstream fetch to have succeeded. -/
theorem fetch_put_call_spread_data_ok_env {env : Env}
    {mp Mp md MD ms today : ℤ} {F : StrikeFmt} {syms : List String}
    {recs : List PCRecord} {n : Nat}
    (h : fetch_put_call_spread_data env mp Mp md MD ms today F syms =
      .ok (recs, n)) :
    ∀ sym ∈ syms, ∃ d, env sym = .ok d := by
  obtain ⟨base, hbase, _⟩ := fetch_put_call_spread_data_ok h
  exact fetch_put_call_spread_loop_ok_env hbase

/-- C1 counterexample: for the multi-symbol fetch operations of the engine
itself the claimed partial-failure semantics do not hold — with symbols
["A", "B", "C"] where fetching "B" fails, both the call-spread fetch (the
loop cited by the claim) and the put-call-spread fetch abort with the
re-raised error: no records for "A" or "C", no per-symbol error entry, no
call count. -/
theorem C1_counterexample :
    fetch_call_spread_data envBatch 50 100 1 60 10 0 intFmt ["A", "B", "C"] =
      .error "Quote fetch failed for B: 500" ∧
    fetch_put_call_spread_data envBatch 50 100 1 60 10 0 intFmt
      ["A", "B", "C"] = .error "Quote fetch failed for B: 500" := by
  constructor
  · with_unfolding_all rfl
  · with_unfolding_all rfl

/-- C1 (amended): the `SchwabAPI` multi-symbol fetch loops re-raise the
first per-symbol failure, so a multi-symbol evaluation request can return
records only when every symbol's fetch succeeded — no partial success, no
error entry. The claimed partial-failure semantics exist only in the batch
configuration route: on a configuration with at least one enabled stock it
never aborts, returns an error list that is exactly the failed stocks'
(symbol, message) pairs in order, an `apiCalls` that sums only the
successful fetches' call counts (a failed fetch contributes 0), and a
record list containing every record of every successful stock. -/
theorem C1_batch_partial_failure (env : Env) (today : ℤ) (F : StrikeFmt)
    (dp : DefaultParams) (stocks : List StockCfg) (mp Mp md MD ms : ℤ)
    (syms : List String)
    (hne : stocks.filter (fun s => s.enabled) ≠ []) :
    (∀ (recs : List CSRecord) (n : Nat),
      fetch_call_spread_data env mp Mp md MD ms today F syms = .ok (recs, n) →
      ∀ sym ∈ syms, ∃ d, env sym = .ok d) ∧
    (∀ (recs : List PCRecord) (n : Nat),
      fetch_put_call_spread_data env mp Mp md MD ms today F syms =
        .ok (recs, n) →
      ∀ sym ∈ syms, ∃ d, env sym = .ok d) ∧
    ∃ b, batch_run_put_call_spread env today F dp stocks = .ok b ∧
      b.summary.errors = (stocks.filter (fun s => s.enabled)).filterMap
        (fun s => match batchFetchStock env today F dp s with
          | .error e => some (s.symbol, e)
          | .ok _ => none) ∧
      b.apiCalls = ((stocks.filter (fun s => s.enabled)).map
        (fun s => match batchFetchStock env today F dp s with
          | .ok v => v.2
          | .error _ => 0)).sum ∧
      ∀ s ∈ stocks.filter (fun s => s.enabled), ∀ rs n,
        batchFetchStock env today F dp s = .ok (rs, n) →
        ∀ r ∈ rs, BatchRecord.mk r (effNotes s) ∈ b.records := by
  refine ⟨fun recs n h => fetch_call_spread_data_ok_env h,
    fun recs n h => fetch_put_call_spread_data_ok_env h, ?_⟩
  have hE : (stocks.filter (fun s => s.enabled)).isEmpty = false := by
    cases hc : stocks.filter (fun s => s.enabled) with
    | nil => exact absurd hc hne
    | cons a l => rfl
  unfold batch_run_put_call_spread
  dsimp only
  rw [hE]
  simp only [Bool.false_eq_true, if_false]
  refine ⟨_, rfl, ?_, ?_, ?_⟩
  · exact batch_loop_errors env today F dp _
  · exact batch_loop_calls env today F dp _
  · intro s hs rs n hf r hr
    have hmem := batch_loop_records env today F dp _ s hs rs n hf r hr
    exact ((List.mergeSort_perm _ batchLe).mem_iff).mpr hmem

/-- Witness for C1 (amended): three enabled stocks where fetching the
second symbol fails. -/
theorem C1_batch_partial_failure_witness :
    (batchStocks.filter (fun s => s.enabled) ≠ []) ∧
    ((∀ (recs : List CSRecord) (n : Nat),
      fetch_call_spread_data envBatch 50 100 1 60 10 0 intFmt
        ["A", "B", "C"] = .ok (recs, n) →
      ∀ sym ∈ ["A", "B", "C"], ∃ d, envBatch sym = .ok d) ∧
    (∀ (recs : List PCRecord) (n : Nat),
      fetch_put_call_spread_data envBatch 50 100 1 60 10 0 intFmt
        ["A", "B", "C"] = .ok (recs, n) →
      ∀ sym ∈ ["A", "B", "C"], ∃ d, envBatch sym = .ok d) ∧
    ∃ b, batch_run_put_call_spread envBatch 0 intFmt dp0 batchStocks =
        .ok b ∧
      b.summary.errors = (batchStocks.filter (fun s => s.enabled)).filterMap
        (fun s => match batchFetchStock envBatch 0 intFmt dp0 s with
          | .error e => some (s.symbol, e)
          | .ok _ => none) ∧
      b.apiCalls = ((batchStocks.filter (fun s => s.enabled)).map
        (fun s => match batchFetchStock envBatch 0 intFmt dp0 s with
          | .ok v => v.2
          | .error _ => 0)).sum ∧
      ∀ s ∈ batchStocks.filter (fun s => s.enabled), ∀ rs n,
        batchFetchStock envBatch 0 intFmt dp0 s = .ok (rs, n) →
        ∀ r ∈ rs, BatchRecord.mk r (effNotes s) ∈ b.records) := by
  have hne : batchStocks.filter (fun s => s.enabled) ≠ [] := by decide
  exact ⟨hne, C1_batch_partial_failure envBatch 0 intFmt dp0 batchStocks 50
    100 1 60 10 ["A", "B", "C"] hne⟩

/-- C6 counterexample: a payload with every required field present but no
`maxSpread` key passes validation (no `ValueError`), and only the keyword
expansion of the evaluation call then fails with an uncaught `TypeError`
(an HTTP 500), not with the claimed `InvalidRequest` rejection. -/
theorem C6_counterexample :
    fetch_call_spread_route envFail 0 intFmt payloadNoMaxSpread =
      .uncaught missingMaxSpreadMsg ∧
    (fetch_call_spread_route envFail 0 intFmt
      payloadNoMaxSpread).isInvalidRequest = false := by
  constructor
  · with_unfolding_all rfl
  · with_unfolding_all rfl

/-- C6 (amended): a spread request whose `maxSpread` value converts to an
integer outside `[1, 30]` is rejected as an `InvalidRequest` (HTTP 400)
before any quote or chain fetch — the response does not depend on the data
environment at all; a request that omits `maxSpread` instead passes
validation and fails with an uncaught `TypeError` (HTTP 500) when the
evaluation call is expanded, also before any data fetch. -/
theorem C6_spread_request_validation (d : RawPayload) (env env' : Env)
    (today today' : ℤ) (F F' : StrikeFmt) :
    (∀ ms : ℤ, d.maxSpread = some (some ms) → (ms < 1 ∨ 30 < ms) →
      (∃ msg, fetch_call_spread_route env today F d = .invalidRequest msg) ∧
      fetch_call_spread_route env today F d =
        fetch_call_spread_route env' today' F' d) ∧
    (∀ p : ParsedPayload, parse_payload d = .ok p → p.max_spread = none →
      fetch_call_spread_route env today F d = .uncaught missingMaxSpreadMsg ∧
      fetch_call_spread_route env today F d =
        fetch_call_spread_route env' today' F' d) := by
  constructor
  · intro ms hms hout
    cases hp : parse_payload d with
    | error e =>
      unfold fetch_call_spread_route
      rw [hp]
      exact ⟨⟨e, rfl⟩, rfl⟩
    | ok p =>
      obtain ⟨_, hge, hle⟩ := parse_payload_ok_maxSpread hp ms hms
      rcases hout with hlt | hgt
      · omega
      · omega
  · intro p hp hnone
    unfold fetch_call_spread_route
    rw [hp]
    dsimp only
    rw [hnone]
    exact ⟨rfl, rfl⟩

/-- Witness for C6 (amended): `maxSpread = 31` is rejected as an
`InvalidRequest` under two different environments, hence before any
fetch. -/
theorem C6_spread_request_validation_witness :
    (payloadWideSpread.maxSpread = some (some 31)) ∧
    ((31 : ℤ) < 1 ∨ (30 : ℤ) < 31) ∧
    (∃ msg, fetch_call_spread_route envFail 0 intFmt payloadWideSpread =
      .invalidRequest msg) ∧
    fetch_call_spread_route envFail 0 intFmt payloadWideSpread =
      fetch_call_spread_route envA 7 intFmt payloadWideSpread := by
  have h := (C6_spread_request_validation payloadWideSpread envFail envA 0 7
      intFmt intFmt).1 31 rfl (Or.inr (by omega))
  exact ⟨rfl, Or.inr (by omega), h.1, h.2⟩

end DkFlask
